import Mathlib

/-!
# Evoex structured-action engine: a shallow embedding

This file embeds the core of the Evoex spreadsheet agent (the structured
action protocol and self-correcting execution engine) in Lean and proves
properties of it.

Sources embedded here:
* `src/unnamed/part_001` — the Excel service: `checkRangeForData`
  (lines 1366–1402), `findEmptyRangeForData` (1409–1482),
  `executeActions` (1490–1500), `executeSingleAction` (1505–2548),
  `validateWriteAction` (2553–2665).
* `src/src/taskpane/taskpane.ts` — the correction orchestrator:
  `acceptAllActions` (1994–2067), `requestErrorCorrection` (2073–2138),
  `verifyFormulaResults` (2144–2202), `requestResultCorrection` (2207–2280).
* `src/src/services/webSearchService.ts` — the response parser:
  `parseStructuredResponse` (1559–1641), `tryParseJson` (1646–1662).

Modelling conventions:
* A1-style range address strings are modelled as explicit 1-based
  (row, column) rectangles (`Rng`).  The TypeScript code only ever splits
  an address at `:` and converts column letters to numbers, so nothing is
  lost by working with the coordinates directly.
* Cell values (`string | number | boolean | null`, part_001 line 159) are
  `CellValue`; numbers are modelled as integers (the claims only compare
  values against zero and count them, never use float arithmetic).
* The asynchronous document-model calls (`Excel.run` bodies) can throw.
  Each `try/catch` site of the source is modelled by an explicit error
  oracle (`ErrOracle`): `none` means the corresponding call succeeds,
  `some msg` means it throws with message `msg`.  Assigning a values or
  formulas matrix whose dimensions do not match the target range throws
  in Office.js (the repository's own correction prompt, taskpane.ts line
  2090, cites this error); the model raises `invalidArgMsg` there.
* Mutations of the live sheet are explicit: the executor threads a
  `Sheet` value and returns the updated one.
-/

namespace Evoex

/-- Cell values, from `type CellValue = string | number | boolean | null`
(part_001 line 159).  `null` also stands for `undefined`; numbers are
modelled as integers. -/
inductive CellValue where
  | null
  | str (s : String)
  | num (n : Int)
  | boolean (b : Bool)
deriving DecidableEq

/-- The emptiness test used throughout part_001
(`cell !== null && cell !== undefined && cell !== ""`). -/
def CellValue.isFilled : CellValue → Bool
  | .null => false
  | .str s => decide (s ≠ "")
  | .num _ => true
  | .boolean _ => true

/-- Association-list lookup for sheet cells (first match wins). -/
def cellsLookup : List ((Nat × Nat) × CellValue) → Nat × Nat → Option CellValue
  | [], _ => none
  | (k, v) :: rest, key => if key = k then some v else cellsLookup rest key

/-- A worksheet: a finite assignment of values to (row, column) cells,
1-based like Excel.  Cells absent from the list read as `null`. -/
structure Sheet where
  cells : List ((Nat × Nat) × CellValue)
deriving DecidableEq

/-- Reading one cell. -/
def Sheet.cellAt (sh : Sheet) (r c : Nat) : CellValue :=
  (cellsLookup sh.cells (r, c)).getD CellValue.null

/-- Writing one cell (the model of assigning to a 1×1 range). -/
def Sheet.setCell (sh : Sheet) (r c : Nat) (v : CellValue) : Sheet :=
  ⟨((r, c), v) :: sh.cells.filter (fun e => decide (e.1 ≠ (r, c)))⟩

/-- The distinct cell keys of the sheet. -/
def Sheet.keys (sh : Sheet) : List (Nat × Nat) :=
  (sh.cells.map Prod.fst).dedup

/-- The positions of the non-empty cells. -/
def Sheet.filledPositions (sh : Sheet) : List (Nat × Nat) :=
  sh.keys.filter (fun p => (sh.cellAt p.1 p.2).isFilled)

/-- The bounding box of the used cells (`getUsedRangeOrNullObject`):
`none` models `isNullObject`. -/
structure UsedRange where
  minRow : Nat
  minCol : Nat
  maxRow : Nat
  maxCol : Nat
deriving DecidableEq

/-- Number of rows of the used bounding box (`usedRange.rowCount`). -/
def UsedRange.rowCount (u : UsedRange) : Nat := u.maxRow - u.minRow + 1

/-- Number of columns of the used bounding box (`usedRange.columnCount`). -/
def UsedRange.columnCount (u : UsedRange) : Nat := u.maxCol - u.minCol + 1

/-- The used range of a sheet: the bounding box of its non-empty cells,
`none` when the sheet is empty. -/
def Sheet.usedRange (sh : Sheet) : Option UsedRange :=
  match sh.filledPositions with
  | [] => none
  | p :: ps =>
    some (ps.foldl
      (fun u q => ⟨min u.minRow q.1, min u.minCol q.2, max u.maxRow q.1, max u.maxCol q.2⟩)
      ⟨p.1, p.2, p.1, p.2⟩)

/-- Reading a rectangular region (`range.load("values")` on a range of
`nR` rows and `nC` columns anchored at `(r0, c0)`). -/
def Sheet.readRegion (sh : Sheet) (r0 c0 nR nC : Nat) : List (List CellValue) :=
  (List.range nR).map (fun i => (List.range nC).map (fun j => sh.cellAt (r0 + i) (c0 + j)))

/-- Count of non-empty cells of a values matrix (the counting loop of
`checkRangeForData`, part_001 lines 1384–1390). -/
def countFilledCells (vals : List (List CellValue)) : Nat :=
  (vals.map (fun row => (row.filter (fun v => v.isFilled)).length)).sum

/-- The emptiness scan of `findEmptyRangeForData`
(part_001 lines 1435–1444): true iff no cell of the matrix is filled. -/
def regionHasNoData (vals : List (List CellValue)) : Bool :=
  vals.all (fun row => row.all (fun v => !v.isFilled))

/-- Total number of cells of a values matrix. -/
def totalCellCount (vals : List (List CellValue)) : Nat :=
  (vals.map List.length).sum

/-- Count of empty cells of a values matrix (the `emptyCount` loop of
`validateWriteAction`, part_001 lines 2593–2602). -/
def emptyCellCount (vals : List (List CellValue)) : Nat :=
  (vals.map (fun row => (row.filter (fun v => !v.isFilled)).length)).sum

theorem cellsLookup_filter_ne (l : List ((Nat × Nat) × CellValue)) (k key : Nat × Nat)
    (h : key ≠ k) :
    cellsLookup (l.filter (fun e => decide (e.1 ≠ k))) key = cellsLookup l key := by
  induction l with
  | nil => rfl
  | cons e rest ih =>
    rw [List.filter_cons]
    by_cases he : e.1 = k
    · have hd : (decide (e.1 ≠ k)) = false := by simp [he]
      rw [hd]
      simp only [Bool.false_eq_true, if_false]
      rw [ih]
      have hke : ¬ key = e.1 := by rw [he]; exact h
      conv_rhs => unfold cellsLookup
      rw [if_neg hke]
    · have hd : (decide (e.1 ≠ k)) = true := by simp [he]
      rw [hd]
      simp only [if_true]
      unfold cellsLookup
      by_cases hk : key = e.1
      · rw [if_pos hk, if_pos hk]
      · rw [if_neg hk, if_neg hk, ih]

theorem setCell_cellAt (sh : Sheet) (r c : Nat) (v : CellValue) (r' c' : Nat) :
    (sh.setCell r c v).cellAt r' c' =
      if (r', c') = (r, c) then v else sh.cellAt r' c' := by
  show (cellsLookup (((r, c), v) :: sh.cells.filter (fun e => decide (e.1 ≠ (r, c))))
      (r', c')).getD CellValue.null = _
  by_cases h : (r', c') = (r, c)
  · rw [if_pos h]
    unfold cellsLookup
    rw [if_pos h]
    rfl
  · rw [if_neg h]
    unfold cellsLookup
    rw [if_neg h, cellsLookup_filter_ne sh.cells (r, c) (r', c') h]
    rfl

theorem cellsLookup_mem_keys (l : List ((Nat × Nat) × CellValue)) (key : Nat × Nat)
    (v : CellValue) (h : cellsLookup l key = some v) : key ∈ l.map Prod.fst := by
  induction l with
  | nil => exact absurd h (by simp [cellsLookup])
  | cons e rest ih =>
    by_cases hk : key = e.1
    · simp [hk]
    · unfold cellsLookup at h
      rw [if_neg hk] at h
      simp only [List.map_cons, List.mem_cons]
      exact Or.inr (ih h)

theorem cellAt_filled_mem (sh : Sheet) (r c : Nat)
    (h : (sh.cellAt r c).isFilled = true) : (r, c) ∈ sh.filledPositions := by
  unfold Sheet.filledPositions
  rw [List.mem_filter]
  refine ⟨?_, h⟩
  unfold Sheet.keys
  rw [List.mem_dedup]
  unfold Sheet.cellAt at h
  rcases hl : cellsLookup sh.cells (r, c) with _ | v
  · rw [hl] at h; simp [CellValue.isFilled] at h
  · exact cellsLookup_mem_keys sh.cells (r, c) v hl

theorem usedRange_none_of_no_filled (sh : Sheet)
    (h : sh.usedRange = none) : ∀ r c, (sh.cellAt r c).isFilled = false := by
  intro r c
  by_contra hc
  have hfill : (sh.cellAt r c).isFilled = true := by
    cases hfc : (sh.cellAt r c).isFilled
    · exact absurd hfc hc
    · rfl
  have hmem := cellAt_filled_mem sh r c hfill
  unfold Sheet.usedRange at h
  rcases hfp : sh.filledPositions with _ | ⟨p, ps⟩
  · rw [hfp] at hmem; simp at hmem
  · rw [hfp] at h; simp at h

theorem regionHasNoData_iff (sh : Sheet) (r0 c0 nR nC : Nat) :
    regionHasNoData (sh.readRegion r0 c0 nR nC) = true ↔
      ∀ i < nR, ∀ j < nC, (sh.cellAt (r0 + i) (c0 + j)).isFilled = false := by
  unfold regionHasNoData Sheet.readRegion
  simp [List.all_eq_true, List.mem_range]

theorem filterFilled_length_eq_zero_iff (row : List CellValue) :
    (row.filter (fun v => v.isFilled)).length = 0 ↔
      (row.all (fun v => !v.isFilled)) = true := by
  rw [List.length_eq_zero, List.filter_eq_nil_iff, List.all_eq_true]
  constructor
  · intro h v hv
    have := h v hv
    simp only [Bool.not_eq_true] at this
    simp [this]
  · intro h v hv
    have := h v hv
    simp only [Bool.not_eq_true'] at this
    simp [this]

theorem countFilledCells_eq_zero_iff (vals : List (List CellValue)) :
    countFilledCells vals = 0 ↔ regionHasNoData vals = true := by
  unfold countFilledCells regionHasNoData
  induction vals with
  | nil => simp
  | cons row rest ih =>
    simp only [List.map_cons, List.sum_cons, List.all_cons, Nat.add_eq_zero,
      Bool.and_eq_true]
    rw [filterFilled_length_eq_zero_iff]
    constructor
    · rintro ⟨h1, h2⟩
      exact ⟨h1, ih.mp h2⟩
    · rintro ⟨h1, h2⟩
      exact ⟨h1, ih.mpr h2⟩

theorem regionHasNoData_mono (sh : Sheet) (r0 c0 n N nC : Nat) (hn : n ≤ N)
    (h : regionHasNoData (sh.readRegion r0 c0 N nC) = true) :
    regionHasNoData (sh.readRegion r0 c0 n nC) = true := by
  rw [regionHasNoData_iff] at h ⊢
  intro i hi j hj
  exact h i (lt_of_lt_of_le hi hn) j hj

/-! ## Actions

The action schema (`ExcelAction`, part_001 lines 321–379).  Only the
fields the verified components inspect are modelled; the remaining
cosmetic configuration fields never influence the claims.  The 30+
cosmetic action kinds are collapsed into `other` (their execution is a
single document-model call that does not touch cell values relevant
here). -/

/-- The action kind tag.  `write` and `formula` are modelled exactly;
every other member of the source's closed union is carried as
`other kind`. -/
inductive ActionType where
  | write
  | formula
  | other (kind : String)
deriving DecidableEq

/-- A rectangular A1-style range `start:end` (or a single cell when
start = end), 1-based.  `address.split(":")[0]` of the source is
`startRow`/`startCol` here. -/
structure Rng where
  startRow : Nat
  startCol : Nat
  endRow : Nat
  endCol : Nat
deriving DecidableEq

/-- A single-cell range. -/
def Rng.cell (r c : Nat) : Rng := ⟨r, c, r, c⟩

/-- The start cell of the range (`range.split(":")[0]`). -/
def Rng.startCell (rng : Rng) : Nat × Nat := (rng.startRow, rng.startCol)

/-- Row count of the literal range address. -/
def Rng.rowCount (rng : Rng) : Nat := rng.endRow - rng.startRow + 1

/-- Column count of the literal range address. -/
def Rng.colCount (rng : Rng) : Nat := rng.endCol - rng.startCol + 1

/-- `ExcelAction` (part_001 lines 321–379) restricted to the fields the
engine core reads: kind tag, target range, payloads, and the
`allowOverwrite` flag (absent modelled as `false`). -/
structure Action where
  type : ActionType
  range : Rng
  value : Option CellValue
  values : Option (List (List CellValue))
  formula : Option String
  formulas : Option (List (List String))
  allowOverwrite : Bool
  sheetName : Option String
deriving DecidableEq

/-- JavaScript `a || b` on numbers (`0` and `undefined` are falsy;
an absent optional-chain length is `0` here). -/
def jsOrNat (a b : Nat) : Nat := if a = 0 then b else a

/-- `xs?.length` for an optional list (absent ⇒ 0, which is falsy). -/
def optLen {α : Type} : Option (List α) → Nat
  | some l => l.length
  | none => 0

/-- `xs?.[0]?.length` for an optional matrix. -/
def optHeadLen {α : Type} : Option (List (List α)) → Nat
  | some (row :: _) => row.length
  | some [] => 0
  | none => 0

/-- `action.values?.length || action.formulas?.length || 1`
(part_001 line 1513). -/
def Action.payloadRows (a : Action) : Nat :=
  jsOrNat (optLen a.values) (jsOrNat (optLen a.formulas) 1)

/-- `action.values?.[0]?.length || action.formulas?.[0]?.length || 1`
(part_001 line 1514). -/
def Action.payloadCols (a : Action) : Nat :=
  jsOrNat (optHeadLen a.values) (jsOrNat (optHeadLen a.formulas) 1)

/-- `OverwriteCheckResult` (part_001 lines 534–539). -/
structure OverwriteCheckResult where
  hasData : Bool
  nonEmptyCells : Nat
  totalCells : Nat
deriving DecidableEq

/-- `ActionResult` (part_001 lines 544–555) restricted to the fields the
claims inspect. -/
structure ActionResult where
  success : Bool
  action : Action
  message : String
  error : Option String
  validated : Bool
  validationPassed : Option Bool
  validationMessage : Option String
  actualValues : Option (List (List CellValue))
deriving DecidableEq

/-- Error oracle for one `executeSingleAction` call: which of the four
`try/catch`-guarded asynchronous document-model interactions throw, and
with what message.  `none` = the call succeeds. -/
structure ErrOracle where
  /-- The `Excel.run` of `checkRangeForData` throws (caught at part_001
  line 1398). -/
  probeErr : Option String
  /-- The `Excel.run` of `findEmptyRangeForData` throws (caught at
  part_001 line 1478). -/
  findErr : Option String
  /-- The action's main `Excel.run` throws (caught at part_001
  line 2536). -/
  execErr : Option String
  /-- The re-read of `validateWriteAction` throws (caught at part_001
  line 2658). -/
  validateErr : Option String
deriving DecidableEq

/-! ## Collision guard -/

/-- `ExcelService.checkRangeForData` (part_001 lines 1366–1402): count
the non-empty cells of the region of the payload's dimensions anchored
at the start cell of the target address.  The `catch` branch (line
1398–1401) returns `{hasData: false, nonEmptyCells: 0, totalCells: 0}`. -/
def checkRangeForData (probeErr : Option String) (sh : Sheet)
    (startRow startCol numRows numCols : Nat) : OverwriteCheckResult :=
  match probeErr with
  | some _ => ⟨false, 0, 0⟩
  | none =>
    let nonEmptyCells := countFilledCells (sh.readRegion startRow startCol numRows numCols)
    ⟨decide (nonEmptyCells > 0), nonEmptyCells, numRows * numCols⟩

/-- One candidate test of `findEmptyRangeForData` (part_001 lines
1431–1444 and 1456–1469): the candidate block starts at row 1, column
`startCol`, spans `numCols` columns and `max numRows usedRowCount`
rows, and must contain no data. -/
def candidateEmpty (sh : Sheet) (startCol numRows numCols usedRowCount : Nat) : Bool :=
  regionHasNoData (sh.readRegion 1 startCol (max numRows usedRowCount) numCols)

/-- `ExcelService.findEmptyRangeForData` (part_001 lines 1409–1482).
Returns the start cell of the relocated block ("`X1`" in the source, so
always row 1), or `none` when the bounded search fails or the
`Excel.run` throws (caught at line 1478). -/
def findEmptyRangeForData (findErr : Option String) (sh : Sheet)
    (numRows numCols : Nat) : Option (Nat × Nat) :=
  match findErr with
  | some _ => none
  | none =>
    match sh.usedRange with
    | none => some (1, 1)
    | some u =>
      let startCol := u.columnCount + 2
      if candidateEmpty sh startCol numRows numCols u.rowCount then
        some (1, startCol)
      else
        match ((List.range 18).map (fun k => k + 3)).find?
            (fun off => candidateEmpty sh (u.columnCount + off) numRows numCols u.rowCount) with
        | some off => some (1, u.columnCount + off)
        | none => none

/-- Soundness of the relocation search: whatever start cell it returns,
the block of the payload's dimensions anchored there is entirely
empty. -/
theorem findEmptyRangeForData_sound (findErr : Option String) (sh : Sheet)
    (numRows numCols : Nat) (r c : Nat)
    (h : findEmptyRangeForData findErr sh numRows numCols = some (r, c)) :
    r = 1 ∧ regionHasNoData (sh.readRegion 1 c numRows numCols) = true := by
  unfold findEmptyRangeForData at h
  rcases findErr with _ | msg
  case some => simp at h
  case none =>
  simp only at h
  rcases hu : sh.usedRange with _ | u
  · rw [hu] at h
    simp only [Option.some.injEq, Prod.mk.injEq] at h
    refine ⟨h.1.symm, ?_⟩
    rw [regionHasNoData_iff]
    intro i _ j _
    exact usedRange_none_of_no_filled sh hu (1 + i) (c + j)
  · rw [hu] at h
    simp only at h
    by_cases h1 : candidateEmpty sh (u.columnCount + 2) numRows numCols u.rowCount = true
    · rw [if_pos h1] at h
      simp only [Option.some.injEq, Prod.mk.injEq] at h
      refine ⟨h.1.symm, ?_⟩
      rw [← h.2]
      exact regionHasNoData_mono sh 1 (u.columnCount + 2) numRows
        (max numRows u.rowCount) numCols (le_max_left _ _) h1
    · rw [if_neg h1] at h
      rcases hf : ((List.range 18).map (fun k => k + 3)).find?
          (fun off => candidateEmpty sh (u.columnCount + off) numRows numCols u.rowCount)
          with _ | off
      · rw [hf] at h; simp at h
      · rw [hf] at h
        simp only [Option.some.injEq, Prod.mk.injEq] at h
        have hc := List.find?_some hf
        simp only [decide_eq_true_eq] at hc
        refine ⟨h.1.symm, ?_⟩
        rw [← h.2]
        exact regionHasNoData_mono sh 1 (u.columnCount + off) numRows
          (max numRows u.rowCount) numCols (le_max_left _ _) hc

/-! ## String utilities

Kernel-friendly character-list implementations of the string operations
used by the source (`startsWith`, `includes`, `trim`, `match`). -/

/-- Does `pat` occur as a prefix of `hay`? -/
def matchesAt : List Char → List Char → Bool
  | _, [] => true
  | [], _ :: _ => false
  | h :: hs, p :: ps => decide (h = p) && matchesAt hs ps

/-- `s.startsWith(t)`. -/
def strStartsWith (s t : String) : Bool := matchesAt s.toList t.toList

/-- Index of the first occurrence of `pat` in the list, if any. -/
def findSubIdx (pat : List Char) : List Char → Option Nat
  | [] => if matchesAt [] pat then some 0 else none
  | c :: t => if matchesAt (c :: t) pat then some 0 else (findSubIdx pat t).map (· + 1)

/-- `s.includes(t)`. -/
def strContainsSub (s t : String) : Bool := (findSubIdx t.toList s.toList).isSome

/-! ## Writing regions -/

/-- Assigning one row of a matrix to consecutive cells, the written value
computed from the position and the matrix entry. -/
def writeGridRow {α : Type} (f : Nat → Nat → α → CellValue) (sh : Sheet) (r c : Nat) :
    List α → Sheet
  | [] => sh
  | v :: rest => writeGridRow f (sh.setCell r c (f r c v)) r (c + 1) rest

/-- Assigning a matrix to a rectangular block of cells row by row.  With
`f = fun _ _ v => v` this is `targetRange.values = matrix`; with an
evaluation function it is `range.formulas = matrix` followed by Excel's
recalculation of the affected cells. -/
def writeGrid {α : Type} (f : Nat → Nat → α → CellValue) (sh : Sheet) (r0 c0 : Nat) :
    List (List α) → Sheet
  | [] => sh
  | row :: rest => writeGrid f (writeGridRow f sh r0 c0 row) (r0 + 1) c0 rest

theorem writeGridRow_cellAt_outside {α : Type} (f : Nat → Nat → α → CellValue)
    (sh : Sheet) (r c : Nat) (vs : List α) (r' c' : Nat)
    (h : r' ≠ r ∨ c' < c ∨ c + vs.length ≤ c') :
    (writeGridRow f sh r c vs).cellAt r' c' = sh.cellAt r' c' := by
  induction vs generalizing sh c with
  | nil => rfl
  | cons v rest ih =>
    show (writeGridRow f (sh.setCell r c (f r c v)) r (c + 1) rest).cellAt r' c' = _
    have h2 : r' ≠ r ∨ c' < c + 1 ∨ (c + 1) + rest.length ≤ c' := by
      rcases h with h | h | h
      · exact Or.inl h
      · exact Or.inr (Or.inl (by omega))
      · exact Or.inr (Or.inr (by simp only [List.length_cons] at h; omega))
    rw [ih (sh.setCell r c (f r c v)) (c + 1) h2, setCell_cellAt]
    have hne : (r', c') ≠ (r, c) := by
      rcases h with h | h | h
      · intro he; exact h (by injection he with h1 h2)
      · intro he; injection he with h1 h2; omega
      · intro he; injection he with h1 h2
        simp only [List.length_cons] at h; omega
    rw [if_neg hne]

theorem writeGrid_cellAt_outside {α : Type} (f : Nat → Nat → α → CellValue)
    (sh : Sheet) (r0 c0 : Nat) (vs : List (List α)) (nC : Nat)
    (hw : ∀ row ∈ vs, row.length = nC) (r' c' : Nat)
    (h : (∀ i < vs.length, r' ≠ r0 + i) ∨ c' < c0 ∨ c0 + nC ≤ c') :
    (writeGrid f sh r0 c0 vs).cellAt r' c' = sh.cellAt r' c' := by
  induction vs generalizing sh r0 with
  | nil => rfl
  | cons row rest ih =>
    show (writeGrid f (writeGridRow f sh r0 c0 row) (r0 + 1) c0 rest).cellAt r' c' = _
    have hw2 : ∀ r ∈ rest, r.length = nC := fun r hr => hw r (List.mem_cons_of_mem _ hr)
    have h2 : (∀ i < rest.length, r' ≠ (r0 + 1) + i) ∨ c' < c0 ∨ c0 + nC ≤ c' := by
      rcases h with h | h | h
      · refine Or.inl (fun i hi => ?_)
        have := h (i + 1) (by simp only [List.length_cons]; omega)
        intro he; exact this (by omega)
      · exact Or.inr (Or.inl h)
      · exact Or.inr (Or.inr h)
    rw [ih (writeGridRow f sh r0 c0 row) (r0 + 1) hw2 h2]
    apply writeGridRow_cellAt_outside
    rcases h with h | h | h
    · exact Or.inl (by have := h 0 (by simp); intro he; exact this (by omega))
    · exact Or.inr (Or.inl h)
    · exact Or.inr (Or.inr (by rw [hw row (List.mem_cons_self _ _)]; exact h))

/-- Writing a uniform matrix into an entirely-empty block never changes a
filled cell: the filled cell necessarily lies outside the block. -/
theorem writeGrid_keeps_filled {α : Type} (f : Nat → Nat → α → CellValue)
    (sh : Sheet) (r0 c0 : Nat) (vs : List (List α)) (nC : Nat)
    (hw : ∀ row ∈ vs, row.length = nC)
    (hempty : regionHasNoData (sh.readRegion r0 c0 vs.length nC) = true)
    (r' c' : Nat) (hf : (sh.cellAt r' c').isFilled = true) :
    (writeGrid f sh r0 c0 vs).cellAt r' c' = sh.cellAt r' c' := by
  apply writeGrid_cellAt_outside f sh r0 c0 vs nC hw
  by_contra hcon
  push_neg at hcon
  obtain ⟨⟨i, hi, hri⟩, hc1, hc2⟩ := hcon
  rw [regionHasNoData_iff] at hempty
  have hj : c' - c0 < nC := by omega
  have := hempty i hi (c' - c0) hj
  have hcell : r0 + i = r' ∧ c0 + (c' - c0) = c' := ⟨by omega, by omega⟩
  rw [hcell.1, hcell.2] at this
  rw [hf] at this
  exact Bool.true_eq_false.mp this

/-! ## Dispatch executor -/

/-- The Office.js invalid-argument error thrown when an assigned values
or formulas matrix does not match the dimensions of the target range.
The repository's own correction prompt (taskpane.ts line 2090) quotes
this failure mode ("matriz de entrada no coincide con el tamaño"). -/
def invalidArgMsg : String := "La matriz de entrada no coincide con el tamaño del rango."

/-- Matrix-formula normalization (part_001 lines 1574–1576):
`f && !f.startsWith("=") ? "=" + f : f` (an empty string is falsy and is
left unchanged). -/
def normalizeFormula (f : String) : String :=
  if f = "" then f
  else if strStartsWith f "=" then f
  else "=" ++ f

/-- The `write` branch of the main `Excel.run` (part_001 lines
1543–1569). -/
def mainRunWrite (sh : Sheet) (a : Action) (finalRange : Rng)
    (overwriteWarning : String) : Except String (Sheet × String) :=
  match a.values with
  | some (row :: rest) =>
    let vs := row :: rest
    let numRows := vs.length
    let numCols := jsOrNat row.length 1
    let r0 := finalRange.startRow
    let c0 := finalRange.startCol
    if vs.all (fun r => decide (r.length = numCols)) then
      Except.ok (writeGrid (fun _ _ v => v) sh r0 c0 vs,
        overwriteWarning ++ "Datos escritos (" ++ toString numRows ++ "x" ++
          toString numCols ++ ") desde (" ++ toString r0 ++ "," ++ toString c0 ++ ")")
    else Except.error invalidArgMsg
  | _ =>
    match a.value with
    | some v =>
      if finalRange.rowCount = 1 ∧ finalRange.colCount = 1 then
        Except.ok (sh.setCell finalRange.startRow finalRange.startCol v,
          overwriteWarning ++ "Valor escrito")
      else Except.error invalidArgMsg
    | none => Except.ok (sh, "Sin datos para escribir")

/-- The `formula` branch of the main `Excel.run` (part_001 lines
1571–1587).  `evalF r c f` is the value Excel computes for formula `f`
placed at `(r, c)`; assigning a matrix whose dimensions differ from the
target range throws. -/
def mainRunFormula (evalF : Nat → Nat → String → CellValue) (sh : Sheet) (a : Action)
    (finalRange : Rng) (overwriteWarning : String) : Except String (Sheet × String) :=
  match a.formulas with
  | some fs =>
    let normalizedFormulas := fs.map (fun r => r.map normalizeFormula)
    if fs.length = finalRange.rowCount ∧
        fs.all (fun r => decide (r.length = finalRange.colCount)) then
      Except.ok (writeGrid (fun r c f => evalF r c f) sh
          finalRange.startRow finalRange.startCol normalizedFormulas,
        overwriteWarning ++ "Fórmulas escritas")
    else Except.error invalidArgMsg
  | none =>
    match a.formula with
    | some f =>
      let formula := if strStartsWith f "=" then f else "=" ++ f
      if finalRange.rowCount = 1 ∧ finalRange.colCount = 1 then
        Except.ok (sh.setCell finalRange.startRow finalRange.startCol
            (evalF finalRange.startRow finalRange.startCol formula),
          overwriteWarning ++ "Fórmula escrita")
      else Except.error invalidArgMsg
    | none => Except.ok (sh, "Sin fórmula para escribir")

/-- The main `Excel.run` body of `executeSingleAction` (part_001 lines
1539–2511).  The `write` and `formula` branches are modelled exactly;
every other kind performs document-model calls that do not affect the
cell values the claims inspect, so it leaves the sheet unchanged. -/
def mainRun (evalF : Nat → Nat → String → CellValue) (sh : Sheet) (a : Action)
    (finalRange : Rng) (overwriteWarning : String) : Except String (Sheet × String) :=
  match a.type with
  | ActionType.write => mainRunWrite sh a finalRange overwriteWarning
  | ActionType.formula => mainRunFormula evalF sh a finalRange overwriteWarning
  | ActionType.other _ => Except.ok (sh, "Acción ejecutada")

/-! ## Result validator -/

/-- Outcome of `validateWriteAction`. -/
structure ValidationResult where
  passed : Bool
  message : String
  actualValues : Option (List (List CellValue))
deriving DecidableEq

/-- `String(cell || "")` (part_001 line 2637): JavaScript
stringification after `||`-defaulting falsy cell values (`null`, `0`,
`false`, `""`) to the empty string. -/
def cellToJsString : CellValue → String
  | .null => ""
  | .str s => s
  | .num n => if n = 0 then "" else toString n
  | .boolean b => if b then "true" else ""

/-- The formula-error sentinel test of `validateWriteAction`
(part_001 line 2638). -/
def isErrorSentinelStr (s : String) : Bool :=
  strStartsWith s "#" &&
    (strContainsSub s "ERROR" || strContainsSub s "REF" || strContainsSub s "VALUE" ||
      strContainsSub s "NAME" || strContainsSub s "DIV")

/-- `expectedData` (part_001 lines 2605–2607), with JavaScript
truthiness: an absent or empty `values` array and an empty `formula`
string are falsy. -/
def expectedDataB (a : Action) : Bool :=
  match a.type with
  | ActionType.write => decide (0 < optLen a.values)
  | _ =>
    (match a.formula with
     | some f => decide (f ≠ "")
     | none => false) || decide (0 < optLen a.formulas)

/-- The region re-read by `validateWriteAction` (part_001 lines
2563–2586): for a `write` with a values payload, the start cell of the
executed range resized to the payload's dimensions; for a `formula`, the
full executed range; otherwise nothing is loaded. -/
def validationReadback (sh : Sheet) (a : Action) (finalRange : Rng) :
    List (List CellValue) :=
  match a.type, a.values with
  | ActionType.write, some vs =>
    sh.readRegion finalRange.startRow finalRange.startCol vs.length
      (jsOrNat (optHeadLen (some vs)) 1)
  | ActionType.write, none => []
  | ActionType.formula, _ =>
    sh.readRegion finalRange.startRow finalRange.startCol finalRange.rowCount
      finalRange.colCount
  | ActionType.other _, _ => []

/-- Count of error-sentinel cells (part_001 lines 2634–2642). -/
def errorSentinelCount (vals : List (List CellValue)) : Nat :=
  (vals.map (fun row =>
    (row.filter (fun v => isErrorSentinelStr (cellToJsString v))).length)).sum

/-- `ExcelService.validateWriteAction` (part_001 lines 2553–2665).  The
`catch` at line 2658 — taken when the re-read throws, and also when
`getResizedRange` rejects the negative resize delta of an empty values
payload — returns `passed: true` with the could-not-validate message. -/
def validateWriteAction (validateErr : Option String) (sh : Sheet) (a : Action)
    (finalRange : Rng) : ValidationResult :=
  match validateErr with
  | some _ => ⟨true, "No se pudo validar la acción", none⟩
  | none =>
    if a.type = ActionType.write ∧ a.values = some [] then
      ⟨true, "No se pudo validar la acción", none⟩
    else
      let actualValues := validationReadback sh a finalRange
      let totalCells := totalCellCount actualValues
      let emptyCount := emptyCellCount actualValues
      let hasData := decide (0 < countFilledCells actualValues)
      if expectedDataB a = true ∧ hasData = false then
        ⟨false, "No se escribieron datos. Celdas vacías: " ++ toString emptyCount ++
          "/" ++ toString totalCells, some actualValues⟩
      else if a.type = ActionType.write ∧ 1 < optLen a.values ∧
          3 * totalCells < 10 * emptyCount ∧ 3 < emptyCount then
        ⟨false, "Tabla incompleta: " ++ toString emptyCount ++ "/" ++ toString totalCells ++
          " celdas vacías (" ++ toString ((200 * emptyCount + totalCells) / (2 * totalCells)) ++
          "%). Se esperaban valores en todas las celdas de datos.", some actualValues⟩
      else if a.type = ActionType.formula ∧ 0 < errorSentinelCount actualValues ∧
          errorSentinelCount actualValues = totalCells then
        ⟨false, "Todas las fórmulas resultaron en error (" ++
          toString (errorSentinelCount actualValues) ++ " errores)", some actualValues⟩
      else
        ⟨true, "Validación exitosa: " ++ toString (totalCells - emptyCount) ++ "/" ++
          toString totalCells ++ " celdas con datos", some actualValues⟩

/-! ## Single-action execution -/

/-- The full outcome of one `executeSingleAction` call: the
`ActionResult`, the updated sheet, and — exposed for the theorem
statements — the range the action was actually executed against
(`finalRange`, part_001 line 1508; equal to the requested range when the
guard aborts the action before execution). -/
structure ExecOutcome where
  result : ActionResult
  sheet : Sheet
  finalRange : Rng
deriving DecidableEq

/-- The collision-guard prefix of `executeSingleAction` (part_001 lines
1511–1537): either continue with the final range and an overwrite
warning, or abort with a ready failure result. -/
def overwriteGuard (o : ErrOracle) (sh : Sheet) (a : Action) :
    Sum (Rng × String) ActionResult :=
  if (a.type = ActionType.write ∨ a.type = ActionType.formula) ∧ a.allowOverwrite = false then
    let numRows := a.payloadRows
    let numCols := a.payloadCols
    let overwriteCheck :=
      checkRangeForData o.probeErr sh a.range.startRow a.range.startCol numRows numCols
    if overwriteCheck.hasData then
      match findEmptyRangeForData o.findErr sh numRows numCols with
      | some rc => Sum.inl (Rng.cell rc.1 rc.2,
          "⚠️ Se evitó sobreescribir " ++ toString overwriteCheck.nonEmptyCells ++ " celdas. ")
      | none => Sum.inr
          { success := false
            action := a
            message := "No se puede escribir: el rango contiene " ++
              toString overwriteCheck.nonEmptyCells ++ " celdas con datos"
            error := some ("El rango contiene datos existentes. Seleccione un rango " ++
              "vacío o use allowOverwrite para forzar la escritura.")
            validated := false
            validationPassed := none
            validationMessage := none
            actualValues := none }
    else Sum.inl (a.range, "")
  else Sum.inl (a.range, "")

/-- `ExcelService.executeSingleAction` (part_001 lines 1505–2548): guard,
main run (whose thrown errors the `catch` at line 2536 maps to a
failure result), then post-execution validation for write/formula
kinds. -/
def executeSingleAction (o : ErrOracle) (evalF : Nat → Nat → String → CellValue)
    (sh : Sheet) (a : Action) : ExecOutcome :=
  match overwriteGuard o sh a with
  | Sum.inr res => ⟨res, sh, a.range⟩
  | Sum.inl (finalRange, overwriteWarning) =>
    let run : Except String (Sheet × String) :=
      match o.execErr with
      | some m => Except.error m
      | none => mainRun evalF sh a finalRange overwriteWarning
    match run with
    | Except.error m =>
      ⟨{ success := false
         action := a
         message := "Error en la acción"
         error := some m
         validated := false
         validationPassed := none
         validationMessage := none
         actualValues := none }, sh, finalRange⟩
    | Except.ok (sh2, msg) =>
      if a.type = ActionType.write ∨ a.type = ActionType.formula then
        let v := validateWriteAction o.validateErr sh2 a finalRange
        ⟨{ success := true
           action := a
           message := msg
           error := none
           validated := true
           validationPassed := some v.passed
           validationMessage := some v.message
           actualValues := v.actualValues }, sh2, finalRange⟩
      else
        ⟨{ success := true
           action := a
           message := msg
           error := none
           validated := false
           validationPassed := none
           validationMessage := none
           actualValues := none }, sh2, finalRange⟩

/-- `ExcelService.executeActions` (part_001 lines 1490–1500): strictly
sequential execution collecting one result per action; a failing action
never aborts the remaining ones. -/
def executeActions (evalF : Nat → Nat → String → CellValue) (sh : Sheet) :
    List (Action × ErrOracle) → List ActionResult × Sheet
  | [] => ([], sh)
  | (a, o) :: rest =>
    let out := executeSingleAction o evalF sh a
    let tail := executeActions evalF out.sheet rest
    (out.result :: tail.1, tail.2)

/-! ## Formula-result anomaly heuristic -/

/-- The Excel-error test of `verifyFormulaResults` (taskpane.ts lines
2160–2162): `v.startsWith("#") || v.includes("ERROR") || v.includes("¡")`. -/
def isAnomalyErrorStr (v : String) : Bool :=
  strStartsWith v "#" || strContainsSub v "ERROR" || strContainsSub v "¡"

/-- The numeric cells of a read-back list (`typeof v === "number"`,
taskpane.ts line 2156). -/
def numericValuesOf (vals : List CellValue) : List Int :=
  vals.filterMap (fun v => match v with | CellValue.num n => some n | _ => none)

/-- The string cells (`typeof v === "string"`, taskpane.ts line 2157). -/
def stringValuesOf (vals : List CellValue) : List String :=
  vals.filterMap (fun v => match v with | CellValue.str s => some s | _ => none)

/-- Anomaly detection for one formula action's re-read cells
(taskpane.ts lines 2150–2183), in source order: any Excel error string;
more than five numeric values all exactly zero; more than ten numeric
values of which over 90% are exactly zero. -/
def actionAnomaly (vals : List CellValue) : Bool :=
  let errorValues := (stringValuesOf vals).filter isAnomalyErrorStr
  if 0 < errorValues.length then true
  else
    let numericValues := numericValuesOf vals
    if 5 < numericValues.length ∧ numericValues.all (fun v => decide (v = 0)) = true then
      true
    else
      let zeroCount := (numericValues.filter (fun v => decide (v = 0))).length
      decide (10 < numericValues.length) &&
        decide (90 * numericValues.length < 100 * zeroCount)

/-- `verifyFormulaResults` (taskpane.ts lines 2144–2202): the
`needsCorrection` flag.  The input pairs each formula action of the
batch with the cells read back from its range
(`Object.values(data.cells)`); `none` records that the read threw, which
the inner `catch` (line 2184) silently skips. -/
def verifyFormulaResults (batch : List (Action × Option (List CellValue))) : Bool :=
  batch.any (fun p =>
    match p.2 with
    | some vals => actionAnomaly vals
    | none => false)

/-! ## Correction orchestrator

The loop formed by `acceptAllActions`, `requestErrorCorrection` and
`requestResultCorrection` (taskpane.ts lines 1994–2280) in auto edit
mode, with the external collaborators — the document model and the
conversational agent — as oracles indexed by the round number. -/

/-- What the collaborators do at round `n`: how many of the round's
`ActionResult`s fail (`errorCount`, line 2004), the re-read cells of the
round's formula actions (consumed by `verifyFormulaResults` when no
action failed, line 2035), and how many actions the agent's correction
response carries (`response.actions.length`, lines 2116 and 2261). -/
structure OrchEnv where
  errorCount : Nat → Nat
  formulaReads : Nat → List (Action × Option (List CellValue))
  agentActionCount : Nat → Nat

/-- Orchestrator state: `running r k` — about to process round `r` with
`k` correction requests sent so far; `doneOk` — a round completed with
no failures and no suspicion; `doneNoActions` — a correction response
carried no actions, which ends the loop. -/
inductive OrchState where
  | running (round : Nat) (corrections : Nat)
  | doneOk (corrections : Nat)
  | doneNoActions (corrections : Nat)
deriving DecidableEq

/-- Number of correction requests sent so far. -/
def OrchState.corrections : OrchState → Nat
  | .running _ k => k
  | .doneOk k => k
  | .doneNoActions k => k

/-- One round of `acceptAllActions` in auto mode (taskpane.ts
1994–2067): execute the pending actions; on failures, send an error
correction (`requestErrorCorrection`, 2073–2138) and — when the agent's
response carries actions — auto-execute them as the next round (line
2125); with no failures but suspicious formula results
(`verifyFormulaResults`), send a result correction
(`requestResultCorrection`, 2207–2280) likewise (line 2267); otherwise
stop.  No transition consults a retry counter: none exists in the
source. -/
def orchStep (env : OrchEnv) : OrchState → OrchState
  | OrchState.running r k =>
    if 0 < env.errorCount r then
      if 0 < env.agentActionCount r then OrchState.running (r + 1) (k + 1)
      else OrchState.doneNoActions (k + 1)
    else if verifyFormulaResults (env.formulaReads r) then
      if 0 < env.agentActionCount r then OrchState.running (r + 1) (k + 1)
      else OrchState.doneNoActions (k + 1)
    else OrchState.doneOk k
  | OrchState.doneOk k => OrchState.doneOk k
  | OrchState.doneNoActions k => OrchState.doneNoActions k

/-- The orchestrator state after `n` rounds of the correction loop. -/
def orchRun (env : OrchEnv) : Nat → OrchState
  | 0 => OrchState.running 0 0
  | n + 1 => orchStep env (orchRun env n)

/-! ## JSON values and `JSON.parse`

`parseStructuredResponse` delegates to the host runtime's `JSON.parse`;
this section models it: a strict, grammar-faithful JSON parser.
Numeric literals are kept as their source token (the claims never
compute with parsed numbers). -/

/-- A parsed JSON value. -/
inductive JVal where
  | null
  | bool (b : Bool)
  | num (lit : String)
  | str (s : String)
  | arr (elems : List JVal)
  | obj (fields : List (String × JVal))

/-- Property lookup on an object's field list; as in JavaScript, a later
duplicate key wins. -/
def getFieldAux : List (String × JVal) → String → Option JVal
  | [], _ => none
  | (k, v) :: rest, key =>
    match getFieldAux rest key with
    | some w => some w
    | none => if key = k then some v else none

/-- JavaScript property access `parsed.key` (non-objects have no own
properties; accessing a property of `null` throws, which every caller
of this model catches, with the same `none` outcome). -/
def JVal.getField (j : JVal) (key : String) : Option JVal :=
  match j with
  | JVal.obj fields => getFieldAux fields key
  | _ => none

/-- Characters the parsers treat specially, by code point. -/
def openBraceChar : Char := Char.ofNat 123

/-- Closing brace. -/
def closeBraceChar : Char := Char.ofNat 125

/-- Opening bracket. -/
def openBrackChar : Char := Char.ofNat 91

/-- Closing bracket. -/
def closeBrackChar : Char := Char.ofNat 93

/-- Double quote. -/
def quoteChar : Char := Char.ofNat 34

/-- Backslash. -/
def backslashChar : Char := Char.ofNat 92

/-- Backtick. -/
def backtickChar : Char := Char.ofNat 96

/-- Skip JSON insignificant whitespace. -/
def skipJsonWs : List Char → List Char
  | [] => []
  | c :: cs => if c = ' ' ∨ c = '\t' ∨ c = '\n' ∨ c = '\r' then skipJsonWs cs else c :: cs

/-- Hexadecimal digit value. -/
def hexVal (c : Char) : Option Nat :=
  if '0' ≤ c ∧ c ≤ '9' then some (c.toNat - 48)
  else if 'a' ≤ c ∧ c ≤ 'f' then some (c.toNat - 87)
  else if 'A' ≤ c ∧ c ≤ 'F' then some (c.toNat - 55)
  else none

/-- JSON string-literal body: input after the opening quote; returns the
decoded content and the remainder after the closing quote. -/
def parseStrRest : List Char → Option (List Char × List Char)
  | [] => none
  | c :: cs =>
    if c = quoteChar then some ([], cs)
    else if c = backslashChar then
      match cs with
      | [] => none
      | e :: cs2 =>
        if e = quoteChar ∨ e = backslashChar ∨ e = '/' then
          (parseStrRest cs2).map (fun p => (e :: p.1, p.2))
        else if e = 'n' then (parseStrRest cs2).map (fun p => ('\n' :: p.1, p.2))
        else if e = 't' then (parseStrRest cs2).map (fun p => ('\t' :: p.1, p.2))
        else if e = 'r' then (parseStrRest cs2).map (fun p => ('\r' :: p.1, p.2))
        else if e = 'b' then (parseStrRest cs2).map (fun p => (Char.ofNat 8 :: p.1, p.2))
        else if e = 'f' then (parseStrRest cs2).map (fun p => (Char.ofNat 12 :: p.1, p.2))
        else if e = 'u' then
          match cs2 with
          | h1 :: h2 :: h3 :: h4 :: cs3 =>
            match hexVal h1, hexVal h2, hexVal h3, hexVal h4 with
            | some a, some b, some c2, some d =>
              (parseStrRest cs3).map
                (fun p => (Char.ofNat (((a * 16 + b) * 16 + c2) * 16 + d) :: p.1, p.2))
            | _, _, _, _ => none
          | _ => none
        else none
    else if c.toNat < 32 then none
    else (parseStrRest cs).map (fun p => (c :: p.1, p.2))

/-- Length of the leading digit run. -/
def digitsLen (cs : List Char) : Nat :=
  (cs.takeWhile (fun c => decide ('0' ≤ c ∧ c ≤ '9'))).length

/-- Length of a JSON integer part at the head of the input. -/
def intPartLen : List Char → Option Nat
  | [] => none
  | c :: cs =>
    if c = '0' then some 1
    else if '1' ≤ c ∧ c ≤ '9' then some (1 + digitsLen cs)
    else none

/-- Length of an optional JSON fraction part. -/
def fracPartLen : List Char → Nat
  | [] => 0
  | c :: cs =>
    if c = '.' then
      let d := digitsLen cs
      if 0 < d then 1 + d else 0
    else 0

/-- Length of an optional JSON exponent part. -/
def expPartLen : List Char → Nat
  | [] => 0
  | c :: cs =>
    if c = 'e' ∨ c = 'E' then
      match cs with
      | d :: cs2 =>
        if d = '+' ∨ d = '-' then
          let n := digitsLen cs2
          if 0 < n then 2 + n else 0
        else
          let n := digitsLen cs
          if 0 < n then 1 + n else 0
      | [] => 0
    else 0

/-- Length of a full JSON number token at the head of the input. -/
def numTokenLen (cs0 : List Char) : Option Nat :=
  match cs0 with
  | '-' :: rest =>
    match intPartLen rest with
    | some n =>
      let f := fracPartLen (rest.drop n)
      some (1 + n + f + expPartLen (rest.drop (n + f)))
    | none => none
  | _ =>
    match intPartLen cs0 with
    | some n =>
      let f := fracPartLen (cs0.drop n)
      some (n + f + expPartLen (cs0.drop (n + f)))
    | none => none

mutual

/-- Parse one JSON value (fuel-indexed recursive descent). -/
def parseJsonVal : Nat → List Char → Option (JVal × List Char)
  | 0, _ => none
  | Nat.succ fuel, cs0 =>
    match skipJsonWs cs0 with
    | [] => none
    | c :: rest =>
      if c = quoteChar then
        match parseStrRest rest with
        | some (content, r) => some (JVal.str (String.mk content), r)
        | none => none
      else if c = openBraceChar then
        match skipJsonWs rest with
        | d :: r2 =>
          if d = closeBraceChar then some (JVal.obj [], r2)
          else
            match parseJsonMembers fuel rest with
            | some (fields, r3) => some (JVal.obj fields, r3)
            | none => none
        | [] => none
      else if c = openBrackChar then
        match skipJsonWs rest with
        | d :: r2 =>
          if d = closeBrackChar then some (JVal.arr [], r2)
          else
            match parseJsonElems fuel rest with
            | some (elems, r3) => some (JVal.arr elems, r3)
            | none => none
        | [] => none
      else if matchesAt (c :: rest) ("true".toList) then
        some (JVal.bool true, (c :: rest).drop 4)
      else if matchesAt (c :: rest) ("false".toList) then
        some (JVal.bool false, (c :: rest).drop 5)
      else if matchesAt (c :: rest) ("null".toList) then
        some (JVal.null, (c :: rest).drop 4)
      else
        match numTokenLen (c :: rest) with
        | some n => some (JVal.num (String.mk ((c :: rest).take n)), (c :: rest).drop n)
        | none => none

/-- Parse the members of a JSON object, up to and including the closing
brace. -/
def parseJsonMembers : Nat → List Char → Option (List (String × JVal) × List Char)
  | 0, _ => none
  | Nat.succ fuel, cs =>
    match skipJsonWs cs with
    | q :: rest =>
      if q = quoteChar then
        match parseStrRest rest with
        | some (key, r1) =>
          match skipJsonWs r1 with
          | colon :: r2 =>
            if colon = ':' then
              match parseJsonVal fuel r2 with
              | some (v, r3) =>
                match skipJsonWs r3 with
                | d :: r4 =>
                  if d = ',' then
                    match parseJsonMembers fuel r4 with
                    | some (fields, r5) => some ((String.mk key, v) :: fields, r5)
                    | none => none
                  else if d = closeBraceChar then some ([(String.mk key, v)], r4)
                  else none
                | [] => none
              | none => none
            else none
          | [] => none
        | none => none
      else none
    | [] => none

/-- Parse the elements of a JSON array, up to and including the closing
bracket. -/
def parseJsonElems : Nat → List Char → Option (List JVal × List Char)
  | 0, _ => none
  | Nat.succ fuel, cs =>
    match parseJsonVal fuel cs with
    | some (v, r1) =>
      match skipJsonWs r1 with
      | d :: r2 =>
        if d = ',' then
          match parseJsonElems fuel r2 with
          | some (elems, r3) => some (v :: elems, r3)
          | none => none
        else if d = closeBrackChar then some ([v], r2)
        else none
      | [] => none
    | none => none

end

/-- The host runtime's `JSON.parse`: `none` models a thrown
`SyntaxError`. -/
def jsonParse (s : String) : Option JVal :=
  match parseJsonVal (s.toList.length + 2) s.toList with
  | some (v, rest) =>
    match skipJsonWs rest with
    | [] => some v
    | _ :: _ => none
  | none => none

/-! ## Response parser -/

/-- `StructuredResponse` (webSearchService.ts line 540 and part_001):
`{message, actions?, thinking?}`. -/
structure StructuredResponse where
  message : String
  actions : Option (List JVal)
  thinking : Option JVal

/-- `AzureOpenAIService.tryParseJson` (webSearchService.ts lines
1646–1662): parse, then accept only a value whose `message` property is
a truthy string (`parsed.message && typeof parsed.message === "string"`
— a present but empty `message` is falsy and rejected); `actions` is
kept only when it is an array; `thinking` is passed through. -/
def tryParseJson (jsonStr : String) : Option StructuredResponse :=
  match jsonParse jsonStr with
  | none => none
  | some parsed =>
    match parsed.getField "message" with
    | some (JVal.str m) =>
      if m = "" then none
      else some
        { message := m
          actions :=
            match parsed.getField "actions" with
            | some (JVal.arr xs) => some xs
            | _ => none
          thinking := parsed.getField "thinking" }
    | _ => none

/-- JavaScript `\s` / `String.prototype.trim()` whitespace (the ASCII
members; the parser never meets the exotic Unicode spaces). -/
def jsWhitespace (c : Char) : Bool :=
  decide (c = ' ' ∨ c = '\t' ∨ c = '\n' ∨ c = '\r' ∨ c = Char.ofNat 11 ∨ c = Char.ofNat 12)

/-- Drop the leading and trailing whitespace of a character list. -/
def jsTrimList (cs : List Char) : List Char :=
  ((cs.dropWhile (fun c => jsWhitespace c)).reverse.dropWhile (fun c => jsWhitespace c)).reverse

/-- The three-backtick fence. -/
def fenceChars : List Char := List.replicate 3 backtickChar

/-- A fence opening a json-tagged block. -/
def fenceJsonChars : List Char := fenceChars ++ "json".toList

/-- Strategy 1 (webSearchService.ts lines 1560–1565): the regex match of
a json-tagged fenced block — the capture is the whitespace-trimmed text
between the first json fence and the next fence after it — fed to
`tryParseJson`. -/
def strategy1 (content : String) : Option StructuredResponse :=
  let cs := content.toList
  match findSubIdx fenceJsonChars cs with
  | none => none
  | some i =>
    let after := cs.drop (i + 7)
    match findSubIdx fenceChars after with
    | none => none
    | some j => tryParseJson (String.mk (jsTrimList (after.take j)))

/-- Strategy 2 (lines 1567–1572): any fenced block whose trimmed capture
starts with an opening brace. -/
def strategy2 (content : String) : Option StructuredResponse :=
  let cs := content.toList
  match findSubIdx fenceChars cs with
  | none => none
  | some i =>
    let after := cs.drop (i + 3)
    match findSubIdx fenceChars after with
    | none => none
    | some j =>
      let captured := jsTrimList (after.take j)
      match captured with
      | c :: _ => if c = openBraceChar then tryParseJson (String.mk captured) else none
      | [] => none

/-- Does a brace-free segment contain a quoted `type` key, optional
whitespace, a colon, optional whitespace and a quoted `calc` value (the
core of the strategy-3 regex)? -/
def hasTypeCalc : List Char → Bool
  | [] => false
  | c :: rest =>
    (matchesAt (c :: rest) ("\"type\"".toList) &&
      (match ((c :: rest).drop 6).dropWhile (fun d => jsWhitespace d) with
       | d :: r2 =>
         decide (d = ':') &&
           matchesAt (r2.dropWhile (fun d2 => jsWhitespace d2)) ("\"calc\"".toList)
       | [] => false))
    || hasTypeCalc rest

/-- Leftmost match of the strategy-3 regex (a brace-delimited, brace-free
segment containing `"type"` : `"calc"`): start index and match length. -/
def strat3Scan : List Char → Nat → Option (Nat × Nat)
  | [], _ => none
  | c :: rest, idx =>
    if c = openBraceChar then
      let seg := rest.takeWhile (fun d => decide (d ≠ openBraceChar ∧ d ≠ closeBraceChar))
      match rest.drop seg.length with
      | d :: _ =>
        if d = closeBraceChar ∧ hasTypeCalc seg = true then some (idx, seg.length + 2)
        else strat3Scan rest (idx + 1)
      | [] => strat3Scan rest (idx + 1)
    else strat3Scan rest (idx + 1)

/-- Strategy 3 (lines 1574–1589): an inline `"type":"calc"` object,
parsed and wrapped into a synthesized envelope whose message is the
trimmed text before the object, or a placeholder when that is empty.
The parsed action is accepted without any validation of its fields. -/
def strategy3 (content : String) : Option StructuredResponse :=
  let cs := content.toList
  match strat3Scan cs 0 with
  | none => none
  | some se =>
    match jsonParse (String.mk ((cs.drop se.1).take se.2)) with
    | some action =>
      let textBefore := jsTrimList (cs.take se.1)
      some
        { message := if textBefore = [] then "Procesando cálculo..." else String.mk textBefore
          actions := some [action]
          thinking := none }
    | none => none

/-- Index of the first character satisfying `p`. -/
def findCharIdx (p : Char → Bool) : List Char → Option Nat
  | [] => none
  | c :: t => if p c then some 0 else (findCharIdx p t).map (· + 1)

/-- Index of the last character satisfying `p`. -/
def findLastCharIdx (p : Char → Bool) (cs : List Char) : Option Nat :=
  match findCharIdx p cs.reverse with
  | some j => some (cs.length - 1 - j)
  | none => none

/-- Strategy 4 (lines 1592–1596): the greedy regex spanning from the
first opening brace, through a `"message"` and then an `"actions"`
literal, to the last closing brace of the text, fed to `tryParseJson`. -/
def strategy4 (content : String) : Option StructuredResponse :=
  let cs := content.toList
  match findCharIdx (fun c => decide (c = openBraceChar)) cs with
  | none => none
  | some p =>
    match findSubIdx ("\"message\"".toList) (cs.drop (p + 1)) with
    | none => none
    | some m0 =>
      match findSubIdx ("\"actions\"".toList) (cs.drop (p + 1 + m0 + 9)) with
      | none => none
      | some a0 =>
        match findLastCharIdx (fun c => decide (c = closeBraceChar)) cs with
        | none => none
        | some e =>
          if p + 1 + m0 + 9 + a0 + 9 ≤ e then
            tryParseJson (String.mk ((cs.drop p).take (e - p + 1)))
          else none

/-- Does the strategy-5 opening pattern (brace, quoted `type` key,
colon, a non-empty quoted value) match at the head of the input? -/
def strat5Here (cs : List Char) : Bool :=
  matchesAt cs (openBraceChar :: "\"type\"".toList) &&
    (match (cs.drop 7).dropWhile (fun d => jsWhitespace d) with
     | d :: r2 =>
       decide (d = ':') &&
         (match r2.dropWhile (fun d2 => jsWhitespace d2) with
          | q :: r4 =>
            decide (q = quoteChar) &&
              (let body := r4.takeWhile (fun d3 => decide (d3 ≠ quoteChar))
               decide (body ≠ []) && decide (r4.drop body.length ≠ []))
          | [] => false)
     | [] => false)

/-- Index of the first strategy-5 match. -/
def strat5Find : List Char → Nat → Option Nat
  | [], _ => none
  | c :: rest, idx =>
    if strat5Here (c :: rest) then some idx else strat5Find rest (idx + 1)

/-- The brace-counting scan of strategy 5 (lines 1602–1613): the length
of the prefix after which the running brace count returns to zero. -/
def braceScanLen : List Char → Int → Nat → Option Nat
  | [], _, _ => none
  | c :: rest, count, consumed =>
    let count2 : Int :=
      if c = openBraceChar then count + 1
      else if c = closeBraceChar then count - 1
      else count
    if count2 = 0 then some (consumed + 1) else braceScanLen rest count2 (consumed + 1)

/-- Strategy 5 (lines 1598–1627): a bare inline action object located by
brace counting, parsed and wrapped into a synthesized envelope.  When
the count never returns to zero the scanned text is empty and
`JSON.parse` throws, falling through.  As in strategy 3, the parsed
action is accepted without validation. -/
def strategy5 (content : String) : Option StructuredResponse :=
  let cs := content.toList
  match strat5Find cs 0 with
  | none => none
  | some start =>
    let jsonStr :=
      match braceScanLen (cs.drop start) 0 0 with
      | some len => String.mk ((cs.drop start).take len)
      | none => ""
    match jsonParse jsonStr with
    | some action =>
      let textBefore := jsTrimList (cs.take start)
      some
        { message := if textBefore = [] then "Procesando..." else String.mk textBefore
          actions := some [action]
          thinking := none }
    | none => none

/-- Strategy 6 (lines 1629–1634): the whole trimmed response, when it is
brace-delimited. -/
def strategy6 (content : String) : Option StructuredResponse :=
  let trimmed := jsTrimList content.toList
  match trimmed with
  | [] => none
  | c :: _ =>
    if c = openBraceChar ∧ trimmed.getLast? = some closeBraceChar then
      tryParseJson (String.mk trimmed)
    else none

/-- `AzureOpenAIService.parseStructuredResponse` (webSearchService.ts
lines 1559–1641): the ordered extraction cascade, falling back —
without ever throwing — to the raw text as a plain message with no
actions. -/
def parseStructuredResponse (content : String) : StructuredResponse :=
  match strategy1 content with
  | some r => r
  | none =>
  match strategy2 content with
  | some r => r
  | none =>
  match strategy3 content with
  | some r => r
  | none =>
  match strategy4 content with
  | some r => r
  | none =>
  match strategy5 content with
  | some r => r
  | none =>
  match strategy6 content with
  | some r => r
  | none => { message := content, actions := none, thinking := none }

/-! ## Specification mirrors

Definitions written from the SPEC's words for the refinement-style
claims; each is compared against the corresponding source-derived
definition above. -/

/-- The verdicts of claim C4's ordered classification rules. -/
inductive WriteVerdict where
  | noDataWritten
  | incompleteTable
  | allFormulasErrored
  | ok
deriving DecidableEq

/-- Mirror of claim C4's words, applied to the re-read region: failed
when the action expected non-empty output and every re-read cell is
empty; failed when (for a write action with more than one payload row)
more than 30% of cells are empty and more than 3 cells are empty; failed
when every cell of a formula region is an error sentinel; otherwise
passed. -/
def specClassify (a : Action) (actual : List (List CellValue)) : WriteVerdict :=
  if expectedDataB a = true ∧ regionHasNoData actual = true then
    WriteVerdict.noDataWritten
  else if a.type = ActionType.write ∧ 1 < optLen a.values ∧
      3 * totalCellCount actual < 10 * emptyCellCount actual ∧
      3 < emptyCellCount actual then
    WriteVerdict.incompleteTable
  else if a.type = ActionType.formula ∧
      actual.all (fun row => row.all (fun v => isErrorSentinelStr (cellToJsString v))) = true then
    WriteVerdict.allFormulasErrored
  else WriteVerdict.ok

/-- Mirror of claim C5's words: a batch is suspicious exactly when some
action's re-read region contains more than 10 numeric outputs of which
over 90% are exactly zero, or any cell containing an error sentinel. -/
def suspiciousSpec (batch : List (Action × Option (List CellValue))) : Bool :=
  batch.any (fun p =>
    match p.2 with
    | some vals =>
      (stringValuesOf vals).any isAnomalyErrorStr ||
        (decide (10 < (numericValuesOf vals).length) &&
          decide (90 * (numericValuesOf vals).length <
            100 * ((numericValuesOf vals).filter (fun v => decide (v = 0))).length))
    | none => false)

/-- The amended claim-C5 criterion: an error sentinel, or more than five
numeric outputs all exactly zero, or more than ten numeric outputs of
which over 90% are exactly zero. -/
def suspiciousAmended (batch : List (Action × Option (List CellValue))) : Bool :=
  batch.any (fun p =>
    match p.2 with
    | some vals =>
      (stringValuesOf vals).any isAnomalyErrorStr ||
        (decide (5 < (numericValuesOf vals).length) &&
          (numericValuesOf vals).all (fun v => decide (v = 0))) ||
        (decide (10 < (numericValuesOf vals).length) &&
          decide (90 * (numericValuesOf vals).length <
            100 * ((numericValuesOf vals).filter (fun v => decide (v = 0))).length))
    | none => false)

/-! ## Auxiliary lemmas for the validator claims -/

theorem totalCellCount_readRegion (sh : Sheet) (r0 c0 nR nC : Nat) :
    totalCellCount (sh.readRegion r0 c0 nR nC) = nR * nC := by
  unfold totalCellCount Sheet.readRegion
  rw [List.map_map]
  have hgen : ∀ (l : List Nat), (l.map (fun _ => nC)).sum = l.length * nC := by
    intro l
    induction l with
    | nil => simp
    | cons x t ih => simp [ih, Nat.succ_mul, Nat.add_comm]
  have : ((List.range nR).map (List.length ∘ fun i =>
      (List.range nC).map (fun j => sh.cellAt (r0 + i) (c0 + j)))).sum =
      ((List.range nR).map (fun _ => nC)).sum := by
    congr 1
    apply List.map_congr_left
    intro i _
    simp
  rw [this, hgen, List.length_range]

theorem filter_length_eq_length_iff {α : Type} (p : α → Bool) (l : List α) :
    (l.filter p).length = l.length ↔ l.all p = true := by
  induction l with
  | nil => simp
  | cons x t ih =>
    rw [List.filter_cons, List.all_cons]
    by_cases hx : p x = true
    · rw [hx]
      simp only [if_true, List.length_cons, Bool.true_and, Nat.add_right_cancel_iff]
      exact ih
    · have hx2 : p x = false := by
        cases hpx : p x
        · rfl
        · exact absurd hpx hx
      rw [hx2]
      simp only [Bool.false_eq_true, if_false, List.length_cons, Bool.false_and]
      constructor
      · intro h
        have := List.length_filter_le p t
        omega
      · intro h; exact absurd h (by simp)

theorem errorSentinelCount_eq_total_iff (vals : List (List CellValue)) :
    errorSentinelCount vals = totalCellCount vals ↔
      vals.all (fun row => row.all
        (fun v => isErrorSentinelStr (cellToJsString v))) = true := by
  unfold errorSentinelCount totalCellCount
  induction vals with
  | nil => simp
  | cons row rest ih =>
    simp only [List.map_cons, List.sum_cons, List.all_cons, Bool.and_eq_true]
    have h1 := List.length_filter_le (fun v => isErrorSentinelStr (cellToJsString v)) row
    have h2 : ((rest.map (fun r =>
        (r.filter (fun v => isErrorSentinelStr (cellToJsString v))).length)).sum ≤
        (rest.map List.length).sum) := by
      clear ih
      induction rest with
      | nil => simp
      | cons r2 t2 ih2 =>
        simp only [List.map_cons, List.sum_cons]
        have := List.length_filter_le (fun v => isErrorSentinelStr (cellToJsString v)) r2
        omega
    constructor
    · intro h
      have hrow : (row.filter (fun v => isErrorSentinelStr (cellToJsString v))).length =
          row.length := by omega
      have hrest : ((rest.map (fun r =>
          (r.filter (fun v => isErrorSentinelStr (cellToJsString v))).length)).sum =
          (rest.map List.length).sum) := by omega
      exact ⟨(filter_length_eq_length_iff _ _).mp hrow, ih.mp hrest⟩
    · rintro ⟨ha, hb⟩
      rw [(filter_length_eq_length_iff _ _).mpr ha, ih.mpr hb]

theorem total_pos_of_rng (sh : Sheet) (rng : Rng) :
    0 < totalCellCount (sh.readRegion rng.startRow rng.startCol rng.rowCount rng.colCount) := by
  rw [totalCellCount_readRegion]
  unfold Rng.rowCount Rng.colCount
  positivity

/-! ## Concrete fixtures used by the witnesses and counterexamples -/

/-- A sheet whose only content is the value `"old"` in cell A1. -/
def sheetA1 : Sheet := ⟨[((1, 1), CellValue.str "old")]⟩

/-- A sheet whose only non-empty cell is B1 — a used range that does not
start at column A. -/
def sheetB1 : Sheet := ⟨[((1, 2), CellValue.str "x")]⟩

/-- An oracle where every document-model call succeeds. -/
def okOracle : ErrOracle := ⟨none, none, none, none⟩

/-- An oracle where the collision guard's occupancy probe throws. -/
def probeFailOracle : ErrOracle := ⟨some "GeneralException", none, none, none⟩

/-- An oracle where the action's main run throws. -/
def execFailOracle : ErrOracle := ⟨none, none, some "Ya existe un recurso con el mismo nombre.", none⟩

/-- An oracle where the validator's re-read throws. -/
def validateFailOracle : ErrOracle := ⟨none, none, none, some "GeneralException"⟩

/-- A fixed formula evaluator: every formula computes to 7. -/
def evalSeven : Nat → Nat → String → CellValue := fun _ _ _ => CellValue.num 7

/-- A 3×1 write action targeting A1. -/
def writeAction3 : Action :=
  ⟨ActionType.write, Rng.cell 1 1, none,
    some [[CellValue.str "x"], [CellValue.str "y"], [CellValue.str "z"]],
    none, none, false, none⟩

/-- A 1×1 write action targeting A1. -/
def writeAction1 : Action :=
  ⟨ActionType.write, Rng.cell 1 1, none, some [[CellValue.str "new"]],
    none, none, false, none⟩

/-- A single-cell aggregate formula action. -/
def formulaAction1 : Action :=
  ⟨ActionType.formula, Rng.cell 1 1, none, none,
    some "=SUMIF(A:A,B1,C:C)", none, false, none⟩

/-! ## Executor unfolding lemmas -/

theorem executeSingleAction_of_guard_inr (o : ErrOracle)
    (evalF : Nat → Nat → String → CellValue) (sh : Sheet) (a : Action)
    (res : ActionResult) (hg : overwriteGuard o sh a = Sum.inr res) :
    executeSingleAction o evalF sh a = ⟨res, sh, a.range⟩ := by
  unfold executeSingleAction
  rw [hg]

theorem executeSingleAction_of_execErr (o : ErrOracle)
    (evalF : Nat → Nat → String → CellValue) (sh : Sheet) (a : Action)
    (fr : Rng) (warn : String) (m : String)
    (hg : overwriteGuard o sh a = Sum.inl (fr, warn)) (he : o.execErr = some m) :
    executeSingleAction o evalF sh a =
      ⟨{ success := false
         action := a
         message := "Error en la acción"
         error := some m
         validated := false
         validationPassed := none
         validationMessage := none
         actualValues := none }, sh, fr⟩ := by
  unfold executeSingleAction
  rw [hg]
  simp only [he]

theorem executeSingleAction_of_runErr (o : ErrOracle)
    (evalF : Nat → Nat → String → CellValue) (sh : Sheet) (a : Action)
    (fr : Rng) (warn : String) (m : String)
    (hg : overwriteGuard o sh a = Sum.inl (fr, warn)) (he : o.execErr = none)
    (hr : mainRun evalF sh a fr warn = Except.error m) :
    executeSingleAction o evalF sh a =
      ⟨{ success := false
         action := a
         message := "Error en la acción"
         error := some m
         validated := false
         validationPassed := none
         validationMessage := none
         actualValues := none }, sh, fr⟩ := by
  unfold executeSingleAction
  rw [hg]
  simp only [he, hr]

theorem executeSingleAction_of_runOk (o : ErrOracle)
    (evalF : Nat → Nat → String → CellValue) (sh : Sheet) (a : Action)
    (fr : Rng) (warn : String) (sh2 : Sheet) (msg : String)
    (hg : overwriteGuard o sh a = Sum.inl (fr, warn)) (he : o.execErr = none)
    (hr : mainRun evalF sh a fr warn = Except.ok (sh2, msg))
    (ht : a.type = ActionType.write ∨ a.type = ActionType.formula) :
    executeSingleAction o evalF sh a =
      ⟨{ success := true
         action := a
         message := msg
         error := none
         validated := true
         validationPassed := some (validateWriteAction o.validateErr sh2 a fr).passed
         validationMessage := some (validateWriteAction o.validateErr sh2 a fr).message
         actualValues := (validateWriteAction o.validateErr sh2 a fr).actualValues },
        sh2, fr⟩ := by
  unfold executeSingleAction
  rw [hg]
  simp only [he, hr, if_pos ht]

theorem overwriteGuard_inr_shape (o : ErrOracle) (sh : Sheet) (a : Action)
    (res : ActionResult) (hg : overwriteGuard o sh a = Sum.inr res) :
    res.success = false ∧ res.validationPassed = none := by
  unfold overwriteGuard at hg
  by_cases hc : (a.type = ActionType.write ∨ a.type = ActionType.formula) ∧
      a.allowOverwrite = false
  · rw [if_pos hc] at hg
    simp only at hg
    by_cases hd : (checkRangeForData o.probeErr sh a.range.startRow a.range.startCol
        a.payloadRows a.payloadCols).hasData = true
    · rw [if_pos hd] at hg
      rcases hf : findEmptyRangeForData o.findErr sh a.payloadRows a.payloadCols with _ | rc
      · rw [hf] at hg
        simp only [Sum.inr.injEq] at hg
        rw [← hg]
        exact ⟨rfl, rfl⟩
      · rw [hf] at hg
        simp at hg
    · rw [if_neg hd] at hg
      simp at hg
  · rw [if_neg hc] at hg
    simp at hg

theorem overwriteGuard_probeErr (o : ErrOracle) (sh : Sheet) (a : Action)
    (m : String) (hp : o.probeErr = some m) :
    overwriteGuard o sh a = Sum.inl (a.range, "") := by
  unfold overwriteGuard
  rw [hp]
  by_cases hc : (a.type = ActionType.write ∨ a.type = ActionType.formula) ∧
      a.allowOverwrite = false
  · rw [if_pos hc]
    rfl
  · rw [if_neg hc]

theorem executeSingleAction_finalRange_of_guard (o : ErrOracle)
    (evalF : Nat → Nat → String → CellValue) (sh : Sheet) (a : Action)
    (fr : Rng) (warn : String)
    (hg : overwriteGuard o sh a = Sum.inl (fr, warn)) :
    (executeSingleAction o evalF sh a).finalRange = fr := by
  rcases he : o.execErr with _ | m2
  · rcases hr : mainRun evalF sh a fr warn with m3 | p
    · rw [executeSingleAction_of_runErr o evalF sh a fr warn m3 hg he hr]
    · rcases p with ⟨sh2, msg⟩
      by_cases ht : a.type = ActionType.write ∨ a.type = ActionType.formula
      · rw [executeSingleAction_of_runOk o evalF sh a fr warn sh2 msg hg he hr ht]
      · unfold executeSingleAction
        rw [hg]
        simp only [he, hr, if_neg ht]
  · rw [executeSingleAction_of_execErr o evalF sh a fr warn m2 hg he]

/-! ## The claims -/

/-- Claim C3: for every raw text input the response parser returns a
`StructuredResponse` and never throws (the model is a total function,
exactly because every `JSON.parse` site of the source sits inside a
`try/catch`); in particular, whenever no extraction strategy succeeds,
it returns exactly the raw text as the message with `actions` absent,
so no action is executed. -/
theorem claim3_parser_total_fallback (content : String)
    (h1 : strategy1 content = none) (h2 : strategy2 content = none)
    (h3 : strategy3 content = none) (h4 : strategy4 content = none)
    (h5 : strategy5 content = none) (h6 : strategy6 content = none) :
    parseStructuredResponse content =
      { message := content, actions := none, thinking := none } := by
  unfold parseStructuredResponse
  rw [h1, h2, h3, h4, h5, h6]

/-- Witness for C3 at the spec's own scenario: bare prose with no JSON
object falls through every strategy and comes back verbatim. -/
theorem claim3_parser_total_fallback_witness :
    parseStructuredResponse "The total is 42" =
      { message := "The total is 42", actions := none, thinking := none } :=
  claim3_parser_total_fallback "The total is 42" rfl rfl rfl rfl rfl rfl

/-- Claim C9: when the collision guard's occupancy probe itself throws,
`checkRangeForData` returns `hasData: false` (zero counts), so the
action proceeds on the originally requested region even when that
region is in fact non-empty — the overwrite-protection check fails open
rather than failing the action. -/
theorem claim9_probe_fails_open (m : String) (sh : Sheet) (a : Action)
    (o : ErrOracle) (evalF : Nat → Nat → String → CellValue)
    (startRow startCol numRows numCols : Nat)
    (hp : o.probeErr = some m) :
    checkRangeForData o.probeErr sh startRow startCol numRows numCols = ⟨false, 0, 0⟩
    ∧ (executeSingleAction o evalF sh a).finalRange = a.range := by
  refine ⟨by rw [hp]; rfl, ?_⟩
  exact executeSingleAction_finalRange_of_guard o evalF sh a a.range ""
    (overwriteGuard_probeErr o sh a m hp)

/-- Witness for C9: with the probe throwing, a 1×1 write aimed at the
non-empty cell A1 stays on A1 and overwrites the pre-existing value. -/
theorem claim9_probe_fails_open_witness :
    checkRangeForData probeFailOracle.probeErr sheetA1 1 1 1 1 = ⟨false, 0, 0⟩
    ∧ (executeSingleAction probeFailOracle evalSeven sheetA1 writeAction1).finalRange =
        writeAction1.range
    ∧ (sheetA1.cellAt 1 1).isFilled = true
    ∧ (executeSingleAction probeFailOracle evalSeven sheetA1 writeAction1).sheet.cellAt 1 1 =
        CellValue.str "new" :=
  ⟨(claim9_probe_fails_open "GeneralException" sheetA1 writeAction1 probeFailOracle
      evalSeven 1 1 1 1 rfl).1,
   (claim9_probe_fails_open "GeneralException" sheetA1 writeAction1 probeFailOracle
      evalSeven 1 1 1 1 rfl).2,
   by decide, by decide⟩

/-- Claim C10: when the post-execution re-read performed by the result
validator itself throws, `validateWriteAction` returns `passed: true`
with the could-not-validate message, so a validation-infrastructure
error never classifies a write or formula action as failed — validation
fails open.  Lifted to the executor: with a failing validator re-read,
no outcome ever carries `validationPassed = some false`. -/
theorem claim10_validation_fails_open (m : String) (sh : Sheet) (a : Action)
    (rng : Rng) (o : ErrOracle) (evalF : Nat → Nat → String → CellValue)
    (hv : o.validateErr = some m) :
    validateWriteAction (some m) sh a rng =
      ⟨true, "No se pudo validar la acción", none⟩
    ∧ (executeSingleAction o evalF sh a).result.validationPassed ≠ some false := by
  refine ⟨rfl, ?_⟩
  rcases hg : overwriteGuard o sh a with fw | res
  · rcases fw with ⟨fr, warn⟩
    rcases he : o.execErr with _ | m2
    · rcases hr : mainRun evalF sh a fr warn with m3 | p
      · rw [executeSingleAction_of_runErr o evalF sh a fr warn m3 hg he hr]
        simp
      · rcases p with ⟨sh2, msg⟩
        by_cases ht : a.type = ActionType.write ∨ a.type = ActionType.formula
        · rw [executeSingleAction_of_runOk o evalF sh a fr warn sh2 msg hg he hr ht]
          rw [hv]
          simp [validateWriteAction]
        · unfold executeSingleAction
          rw [hg]
          simp only [he, hr, if_neg ht]
          simp
    · rw [executeSingleAction_of_execErr o evalF sh a fr warn m2 hg he]
      simp
  · rw [executeSingleAction_of_guard_inr o evalF sh a res hg]
    have := (overwriteGuard_inr_shape o sh a res hg).2
    simp only []
    rw [this]
    simp

/-- Witness for C10: a formula action whose re-read throws still comes
back with a passing validation verdict. -/
theorem claim10_validation_fails_open_witness :
    validateWriteAction (some "GeneralException") sheetA1 formulaAction1 (Rng.cell 1 1) =
      ⟨true, "No se pudo validar la acción", none⟩
    ∧ (executeSingleAction validateFailOracle evalSeven sheetA1
        formulaAction1).result.validationPassed ≠ some false :=
  claim10_validation_fails_open "GeneralException" sheetA1 formulaAction1 (Rng.cell 1 1)
    validateFailOracle evalSeven rfl

/-- Claim C8: the dispatch executor always returns one `ActionResult`
per action and never raises (the model is total by construction — every
document-model error surfaces as an `Except.error` consumed by the
`catch` of `executeSingleAction`): a batch yields exactly as many
results as actions; an error thrown during an action's execution (after
the guard let it proceed) maps to `success := false` with the error's
message and leaves the sheet untouched; and the tail of a batch is
executed the same way whatever happened to its head, so a failure never
aborts the remaining actions. -/
theorem claim8_executor_error_mapping :
    (∀ (evalF : Nat → Nat → String → CellValue) (sh : Sheet)
        (acts : List (Action × ErrOracle)),
      (executeActions evalF sh acts).1.length = acts.length)
    ∧ (∀ (o : ErrOracle) (evalF : Nat → Nat → String → CellValue) (sh : Sheet)
        (a : Action) (m : String), o.execErr = some m →
        (∃ fr warn, overwriteGuard o sh a = Sum.inl (fr, warn)) →
        (executeSingleAction o evalF sh a).result.success = false
        ∧ (executeSingleAction o evalF sh a).result.error = some m
        ∧ (executeSingleAction o evalF sh a).sheet = sh)
    ∧ (∀ (evalF : Nat → Nat → String → CellValue) (sh : Sheet) (a : Action)
        (o : ErrOracle) (rest : List (Action × ErrOracle)),
        executeActions evalF sh ((a, o) :: rest) =
          ((executeSingleAction o evalF sh a).result ::
            (executeActions evalF (executeSingleAction o evalF sh a).sheet rest).1,
           (executeActions evalF (executeSingleAction o evalF sh a).sheet rest).2)) := by
  refine ⟨?_, ?_, ?_⟩
  · intro evalF sh acts
    induction acts generalizing sh with
    | nil => rfl
    | cons p rest ih =>
      rcases p with ⟨a, o⟩
      unfold executeActions
      simp only [List.length_cons]
      rw [ih]
  · intro o evalF sh a m hm hguard
    rcases hguard with ⟨fr, warn, hg⟩
    rw [executeSingleAction_of_execErr o evalF sh a fr warn m hg hm]
    exact ⟨rfl, rfl, rfl⟩
  · intro evalF sh a o rest
    rfl

/-- Witness for C8: a batch of two actions whose first throws during
execution still yields two results; the first is the mapped failure and
the second — executed on the untouched sheet — succeeds. -/
theorem claim8_executor_error_mapping_witness :
    (executeActions evalSeven sheetA1
      [(writeAction1, execFailOracle), (formulaAction1, okOracle)]).1.length = 2
    ∧ (executeSingleAction execFailOracle evalSeven sheetA1 writeAction1).result.success = false
    ∧ (executeSingleAction execFailOracle evalSeven sheetA1 writeAction1).result.error =
        some "Ya existe un recurso con el mismo nombre."
    ∧ (executeSingleAction execFailOracle evalSeven sheetA1 writeAction1).sheet = sheetA1
    ∧ ((executeActions evalSeven sheetA1
        [(writeAction1, execFailOracle), (formulaAction1, okOracle)]).1.map
          (fun r => r.success)) = [false, true] := by
  have h2 := claim8_executor_error_mapping.2.1 execFailOracle evalSeven sheetA1 writeAction1
    "Ya existe un recurso con el mismo nombre." rfl
    ⟨Rng.cell 1 3, "⚠️ Se evitó sobreescribir 1 celdas. ", by decide⟩
  have h1 := claim8_executor_error_mapping.1 evalSeven sheetA1
    [(writeAction1, execFailOracle), (formulaAction1, okOracle)]
  exact ⟨h1, h2.1, h2.2.1, h2.2.2, by decide⟩

/-- The claim-C2 adversarial environment: every round has one failing
action and the agent always replies with one replacement action. -/
def advOrchEnv : OrchEnv := ⟨fun _ => 1, fun _ => [], fun _ => 1⟩

/-- Counterexample to claim C2 as stated: under an agent whose
corrections keep failing, after five rounds the orchestrator has sent
five correction requests and is still running — beyond the claimed
ceiling of one hard-failure retry round plus one suspicious-result
round; nothing in the code compares the round count to a ceiling. -/
theorem claim2_retry_ceiling_counterexample :
    orchRun advOrchEnv 5 = OrchState.running 5 5
    ∧ 2 < (orchRun advOrchEnv 5).corrections :=
  ⟨rfl, by decide⟩

/-- Claim C2 amended: the correction loop has no retry ceiling.  Every
round with hard failures (or flagged-suspicious results) whose
correction response carries actions leads to a further round, so an
agent whose corrections keep failing drives unboundedly many correction
rounds; the loop terminates only when a round completes with no
failures and no suspicion, or when a correction response carries no
actions. -/
theorem claim2_retry_loop_amended (env : OrchEnv) (n : Nat) (r k : Nat)
    (hfail : ∀ m2, 0 < env.errorCount m2 ∧ 0 < env.agentActionCount m2) :
    orchRun env n = OrchState.running n n
    ∧ (env.errorCount r = 0 → verifyFormulaResults (env.formulaReads r) = false →
        orchStep env (OrchState.running r k) = OrchState.doneOk k)
    ∧ (0 < env.errorCount r → env.agentActionCount r = 0 →
        orchStep env (OrchState.running r k) = OrchState.doneNoActions (k + 1)) := by
  refine ⟨?_, ?_, ?_⟩
  · induction n with
    | zero => rfl
    | succ n ih =>
      show orchStep env (orchRun env n) = OrchState.running (n + 1) (n + 1)
      rw [ih]
      simp only [orchStep]
      rw [if_pos (hfail n).1, if_pos (hfail n).2]
  · intro h0 hv
    simp only [orchStep]
    rw [if_neg (by omega : ¬ 0 < env.errorCount r), hv]
    simp
  · intro h0 ha
    simp only [orchStep]
    rw [if_pos h0, if_neg (by omega : ¬ 0 < env.agentActionCount r)]

/-- Witness for the amended C2: the adversarial environment drives the
loop through three full correction rounds with no end. -/
theorem claim2_retry_loop_amended_witness :
    orchRun advOrchEnv 3 = OrchState.running 3 3 :=
  (claim2_retry_loop_amended advOrchEnv 3 0 0
    (fun _ => ⟨Nat.one_pos, Nat.one_pos⟩)).1

/-- Positivity of a filter's length is the `any` of its predicate. -/
theorem filter_length_pos_iff_any {α : Type} (p : α → Bool) (l : List α) :
    0 < (l.filter p).length ↔ l.any p = true := by
  induction l with
  | nil => simp
  | cons x t ih =>
    rw [List.filter_cons, List.any_cons]
    cases hx : p x
    · simp only [Bool.false_eq_true, if_false, Bool.false_or]
      exact ih
    · simp

/-- One action's anomaly flag as an unordered disjunction. -/
theorem actionAnomaly_eq_amended (vals : List CellValue) :
    actionAnomaly vals =
      ((stringValuesOf vals).any isAnomalyErrorStr ||
        (decide (5 < (numericValuesOf vals).length) &&
          (numericValuesOf vals).all (fun v => decide (v = 0))) ||
        (decide (10 < (numericValuesOf vals).length) &&
          decide (90 * (numericValuesOf vals).length <
            100 * ((numericValuesOf vals).filter (fun v => decide (v = 0))).length))) := by
  unfold actionAnomaly
  by_cases h1 : 0 < ((stringValuesOf vals).filter isAnomalyErrorStr).length
  · rw [if_pos h1]
    rw [(filter_length_pos_iff_any _ _).mp h1]
    rfl
  · rw [if_neg h1]
    have h1f : (stringValuesOf vals).any isAnomalyErrorStr = false := by
      cases ha : (stringValuesOf vals).any isAnomalyErrorStr with
      | false => rfl
      | true => exact absurd ((filter_length_pos_iff_any _ _).mpr ha) h1
    rw [h1f]
    simp only [Bool.false_or]
    by_cases h2 : 5 < (numericValuesOf vals).length ∧
        (numericValuesOf vals).all (fun v => decide (v = 0)) = true
    · rw [if_pos h2]
      rw [(by exact decide_eq_true h2.1 : decide (5 < (numericValuesOf vals).length) = true),
        h2.2]
      rfl
    · rw [if_neg h2]
      have : (decide (5 < (numericValuesOf vals).length) &&
          (numericValuesOf vals).all (fun v => decide (v = 0))) = false := by
        by_cases ha : 5 < (numericValuesOf vals).length
        · cases hb : (numericValuesOf vals).all (fun v => decide (v = 0)) with
          | true => exact absurd ⟨ha, hb⟩ h2
          | false => simp [hb]
        · simp [ha]
      rw [this]
      simp

/-- Counterexample to claim C5 as stated ("exactly when ... more than 10
numeric outputs of which over 90% are exactly zero, or any error
sentinel"): a batch whose single action read back six numeric zeros is
flagged suspicious by the code (the more-than-five-all-zero rule at
taskpane.ts line 2169), yet satisfies neither arm of the claim's
criterion. -/
theorem claim5_suspicious_criterion_counterexample :
    verifyFormulaResults
      [(formulaAction1, some (List.replicate 6 (CellValue.num 0)))] = true
    ∧ suspiciousSpec
      [(formulaAction1, some (List.replicate 6 (CellValue.num 0)))] = false :=
  ⟨rfl, rfl⟩

/-- Claim C5 amended: the heuristic flags a batch as suspicious exactly
when some action's re-read region contains an error-sentinel string, or
more than five numeric outputs all exactly zero, or more than ten
numeric outputs of which over 90% are exactly zero.  In particular a
batch with at least ten numeric results that are all zero is flagged,
and — with no hard failures and a non-empty correction response — the
flag triggers a correction round. -/
theorem claim5_suspicious_amended (batch : List (Action × Option (List CellValue)))
    (env : OrchEnv) (r k : Nat) :
    verifyFormulaResults batch = suspiciousAmended batch
    ∧ (∀ a vals, (a, some vals) ∈ batch → 10 ≤ (numericValuesOf vals).length →
        (∀ v ∈ numericValuesOf vals, v = 0) → verifyFormulaResults batch = true)
    ∧ (env.errorCount r = 0 → verifyFormulaResults (env.formulaReads r) = true →
        0 < env.agentActionCount r →
        orchStep env (OrchState.running r k) = OrchState.running (r + 1) (k + 1)) := by
  refine ⟨?_, ?_, ?_⟩
  · unfold verifyFormulaResults suspiciousAmended
    induction batch with
    | nil => rfl
    | cons p rest ih =>
      simp only [List.any_cons]
      rw [ih]
      congr 1
      rcases p with ⟨a, d⟩
      rcases d with _ | vals
      · rfl
      · exact actionAnomaly_eq_amended vals
  · intro a vals hmem hlen hzero
    unfold verifyFormulaResults
    rw [List.any_eq_true]
    refine ⟨(a, some vals), hmem, ?_⟩
    show actionAnomaly vals = true
    unfold actionAnomaly
    by_cases h1 : 0 < ((stringValuesOf vals).filter isAnomalyErrorStr).length
    · rw [if_pos h1]
    · rw [if_neg h1]
      rw [if_pos ⟨by omega, List.all_eq_true.mpr
        (fun v hv => decide_eq_true (hzero v hv))⟩]
  · intro h0 hv ha
    simp only [orchStep]
    rw [if_neg (by omega : ¬ 0 < env.errorCount r), hv]
    rw [if_pos rfl, if_pos ha]

/-- Witness for the amended C5: a batch of ten all-zero numeric results
is flagged, and in a round with no failures the flag sends exactly one
further correction request and re-enters execution. -/
theorem claim5_suspicious_amended_witness :
    verifyFormulaResults
      [(formulaAction1, some (List.replicate 10 (CellValue.num 0)))] = true
    ∧ orchStep
        ⟨fun _ => 0, fun _ => [(formulaAction1, some (List.replicate 10 (CellValue.num 0)))],
          fun _ => 1⟩
        (OrchState.running 0 0) = OrchState.running 1 1 := by
  refine ⟨?_, ?_⟩
  · exact (claim5_suspicious_amended
      [(formulaAction1, some (List.replicate 10 (CellValue.num 0)))]
      advOrchEnv 0 0).2.1 formulaAction1 (List.replicate 10 (CellValue.num 0))
      (by decide) (by decide) (by decide)
  · exact (claim5_suspicious_amended []
      ⟨fun _ => 0, fun _ => [(formulaAction1, some (List.replicate 10 (CellValue.num 0)))],
        fun _ => 1⟩ 0 0).2.2 rfl (by decide) (by decide)

/-- Claim C6 (code bug): the relocation search's first candidate column.
On `sheetB1` — whose only non-empty cell is B1, so the used range does
not start at column A — the last used column is 2 and the claim (like
the source's own comment, part_001 lines 1423–1426) puts the first
candidate at column 2 + 2 = 4; the code computes
`usedRange.columnCount + 2 = 3` instead and, column C being empty,
relocates there. -/
theorem claim6_relocation_start_bug :
    sheetB1.usedRange = some ⟨1, 2, 1, 2⟩
    ∧ findEmptyRangeForData none sheetB1 1 1 = some (1, 3)
    ∧ (UsedRange.mk 1 2 1 2).maxCol + 2 = 4
    ∧ (UsedRange.mk 1 2 1 2).columnCount + 2 = 3
    ∧ (3 : Nat) ≠ 4 :=
  ⟨rfl, rfl, rfl, rfl, by decide⟩

/-- The claim-C7 counterexample input: an inline calc action object with
no `message` field. -/
def calcOnlyInput : String := "\x7b\"type\":\"calc\"\x7d"

/-- Counterexample to claim C7 as stated: strategy 3's candidate parses
to a JSON value with no string `message` field, yet the strategy accepts
it (synthesizing a placeholder message) instead of rejecting it and
falling through — so the parser does not return the raw text. -/
theorem claim7_message_validation_counterexample :
    jsonParse calcOnlyInput = some (JVal.obj [("type", JVal.str "calc")])
    ∧ (JVal.obj [("type", JVal.str "calc")]).getField "message" = none
    ∧ (parseStructuredResponse calcOnlyInput).message = "Procesando cálculo..."
    ∧ (parseStructuredResponse calcOnlyInput).message ≠ calcOnlyInput :=
  ⟨rfl, rfl, rfl, by decide⟩

/-- Claim C7 amended: the envelope strategies (1, 2, 4 and 6 — all going
through `tryParseJson`) accept a parsed value only if it carries a
non-empty string `message`, and invalid JSON (or a missing, empty or
non-string `message`) falls through; the single-action strategies (3 and
5) accept any candidate that parses as JSON at all, synthesizing the
envelope around it, and only invalid JSON falls through there. -/
theorem claim7_message_validation_amended :
    (∀ s r, tryParseJson s = some r →
      ∃ j, jsonParse s = some j ∧ j.getField "message" = some (JVal.str r.message)
        ∧ r.message ≠ "")
    ∧ (∀ s, jsonParse s = none → tryParseJson s = none)
    ∧ (∀ content r, strategy1 content = some r → ∃ cand, tryParseJson cand = some r)
    ∧ (∀ content r, strategy2 content = some r → ∃ cand, tryParseJson cand = some r)
    ∧ (∀ content r, strategy4 content = some r → ∃ cand, tryParseJson cand = some r)
    ∧ (∀ content r, strategy6 content = some r → ∃ cand, tryParseJson cand = some r)
    ∧ (∀ content r, strategy3 content = some r →
        ∃ cand j, jsonParse cand = some j ∧ r.actions = some [j])
    ∧ (∀ content r, strategy5 content = some r →
        ∃ cand j, jsonParse cand = some j ∧ r.actions = some [j]) := by
  refine ⟨?_, ?_, ?_, ?_, ?_, ?_, ?_, ?_⟩
  · intro s r h
    unfold tryParseJson at h
    split at h
    · exact absurd h (by simp)
    · rename_i parsed hj
      split at h
      · rename_i m hm
        split at h
        · exact absurd h (by simp)
        · rename_i hm0
          simp only [Option.some.injEq] at h
          refine ⟨parsed, hj, ?_, ?_⟩
          · rw [hm, ← h]
          · rw [← h]; exact hm0
      · exact absurd h (by simp)
  · intro s h
    unfold tryParseJson
    rw [h]
  · intro content r h
    simp only [strategy1] at h
    split at h
    · exact absurd h (by simp)
    · split at h
      · exact absurd h (by simp)
      · exact ⟨_, h⟩
  · intro content r h
    simp only [strategy2] at h
    split at h
    · exact absurd h (by simp)
    · split at h
      · exact absurd h (by simp)
      · split at h
        · split at h
          · exact ⟨_, h⟩
          · exact absurd h (by simp)
        · exact absurd h (by simp)
  · intro content r h
    simp only [strategy4] at h
    split at h
    · exact absurd h (by simp)
    · split at h
      · exact absurd h (by simp)
      · split at h
        · exact absurd h (by simp)
        · split at h
          · exact absurd h (by simp)
          · split at h
            · exact ⟨_, h⟩
            · exact absurd h (by simp)
  · intro content r h
    simp only [strategy6] at h
    split at h
    · exact absurd h (by simp)
    · split at h
      · exact ⟨_, h⟩
      · exact absurd h (by simp)
  · intro content r h
    simp only [strategy3] at h
    split at h
    · exact absurd h (by simp)
    · split at h
      · rename_i se action h2
        simp only [Option.some.injEq] at h
        exact ⟨_, action, h2, by rw [← h]⟩
      · exact absurd h (by simp)
  · intro content r h
    simp only [strategy5] at h
    split at h
    · exact absurd h (by simp)
    · split at h
      · rename_i start action h2
        simp only [Option.some.injEq] at h
        exact ⟨_, action, h2, by rw [← h]⟩
      · exact absurd h (by simp)

/-- Witness for the amended C7: an envelope with a non-empty string
message is accepted, and its message is exactly that field. -/
theorem claim7_message_validation_amended_witness :
    ∃ j, jsonParse "\x7b\"message\":\"hi\"\x7d" = some j
      ∧ j.getField "message" = some (JVal.str "hi") ∧ ("hi" : String) ≠ "" :=
  claim7_message_validation_amended.1 "\x7b\"message\":\"hi\"\x7d"
    ⟨"hi", none, none⟩ rfl

/-! ### Claim C4 -/

theorem countFilled_decide_false_iff (vals : List (List CellValue)) :
    decide (0 < countFilledCells vals) = false ↔ regionHasNoData vals = true := by
  rw [decide_eq_false_iff_not, Nat.not_lt, Nat.le_zero]
  exact countFilledCells_eq_zero_iff vals

theorem validationReadback_formula (sh : Sheet) (a : Action) (rng : Rng)
    (hf : a.type = ActionType.formula) :
    validationReadback sh a rng =
      sh.readRegion rng.startRow rng.startCol rng.rowCount rng.colCount := by
  unfold validationReadback
  rw [hf]

/-- The code's third validation condition matches the spec's
"every cell of a formula region is an error sentinel". -/
theorem validator_cond3_iff (sh : Sheet) (a : Action) (rng : Rng) :
    (a.type = ActionType.formula
      ∧ 0 < errorSentinelCount (validationReadback sh a rng)
      ∧ errorSentinelCount (validationReadback sh a rng) =
          totalCellCount (validationReadback sh a rng)) ↔
    (a.type = ActionType.formula
      ∧ (validationReadback sh a rng).all (fun row => row.all
          (fun v => isErrorSentinelStr (cellToJsString v))) = true) := by
  constructor
  · rintro ⟨hf, _, heq⟩
    exact ⟨hf, (errorSentinelCount_eq_total_iff _).mp heq⟩
  · rintro ⟨hf, hall⟩
    have heq := (errorSentinelCount_eq_total_iff _).mpr hall
    have hpos : 0 < totalCellCount (validationReadback sh a rng) := by
      rw [validationReadback_formula sh a rng hf]
      exact total_pos_of_rng sh rng
    exact ⟨hf, by omega, heq⟩

/-- Claim C4: the post-execution validator's verdict agrees with the
spec's ordered classification rules applied to the re-read region; an
action with an empty expected payload is never failed for emptiness
(a write with an empty payload always passes, and neither emptiness
verdict can fire without an expected payload); and a passing verdict
reports the non-empty/total cell ratio. -/
theorem claim4_validator_classification (sh : Sheet) (a : Action) (rng : Rng)
    (_htype : a.type = ActionType.write ∨ a.type = ActionType.formula) :
    ((validateWriteAction none sh a rng).passed = true ↔
      specClassify a (validationReadback sh a rng) = WriteVerdict.ok)
    ∧ (expectedDataB a = false → a.type = ActionType.write →
        (validateWriteAction none sh a rng).passed = true)
    ∧ (expectedDataB a = false →
        specClassify a (validationReadback sh a rng) ≠ WriteVerdict.noDataWritten
        ∧ specClassify a (validationReadback sh a rng) ≠ WriteVerdict.incompleteTable)
    ∧ ((validateWriteAction none sh a rng).passed = true → a.values ≠ some [] →
        (validateWriteAction none sh a rng).message =
          "Validación exitosa: " ++
            toString (totalCellCount (validationReadback sh a rng) -
              emptyCellCount (validationReadback sh a rng)) ++ "/" ++
            toString (totalCellCount (validationReadback sh a rng)) ++
            " celdas con datos") := by
  have hspec3 : ∀ hno : expectedDataB a = false,
      specClassify a (validationReadback sh a rng) ≠ WriteVerdict.noDataWritten
      ∧ specClassify a (validationReadback sh a rng) ≠ WriteVerdict.incompleteTable := by
    intro hno
    unfold specClassify
    have hc1 : ¬(expectedDataB a = true ∧
        regionHasNoData (validationReadback sh a rng) = true) := by
      rintro ⟨h1, _⟩; rw [hno] at h1; cases h1
    have hc2 : ¬(a.type = ActionType.write ∧ 1 < optLen a.values ∧
        3 * totalCellCount (validationReadback sh a rng) <
          10 * emptyCellCount (validationReadback sh a rng) ∧
        3 < emptyCellCount (validationReadback sh a rng)) := by
      rintro ⟨hw, hlen, _⟩
      have : expectedDataB a = true := by
        unfold expectedDataB
        rw [hw]
        exact decide_eq_true (by omega)
      rw [hno] at this; cases this
    rw [if_neg hc1, if_neg hc2]
    split
    · constructor
      · intro hc; cases hc
      · intro hc; cases hc
    · constructor
      · intro hc; cases hc
      · intro hc; cases hc
  by_cases hE : a.type = ActionType.write ∧ a.values = some []
  · have hL : validateWriteAction none sh a rng =
        ⟨true, "No se pudo validar la acción", none⟩ := by
      simp only [validateWriteAction]
      rw [if_pos hE]
    have hexp : expectedDataB a = false := by
      unfold expectedDataB
      rw [hE.1, hE.2]
      rfl
    have hR : specClassify a (validationReadback sh a rng) = WriteVerdict.ok := by
      unfold specClassify
      rw [if_neg (fun hc => by rw [hexp] at hc; cases hc.1), if_neg, if_neg]
      · rintro ⟨hf, _⟩
        rw [hE.1] at hf; cases hf
      · rintro ⟨_, hlen, _⟩
        rw [hE.2] at hlen
        simp [optLen] at hlen
    refine ⟨?_, ?_, fun _ => hspec3 hexp, ?_⟩
    · rw [hL, hR]
      simp
    · intro _ _
      rw [hL]
    · intro _ hne
      exact absurd hE.2 hne
  · have hunfL : validateWriteAction none sh a rng =
        (if expectedDataB a = true ∧
            decide (0 < countFilledCells (validationReadback sh a rng)) = false then
          ⟨false, "No se escribieron datos. Celdas vacías: " ++
            toString (emptyCellCount (validationReadback sh a rng)) ++ "/" ++
            toString (totalCellCount (validationReadback sh a rng)),
            some (validationReadback sh a rng)⟩
        else if a.type = ActionType.write ∧ 1 < optLen a.values ∧
            3 * totalCellCount (validationReadback sh a rng) <
              10 * emptyCellCount (validationReadback sh a rng) ∧
            3 < emptyCellCount (validationReadback sh a rng) then
          ⟨false, "Tabla incompleta: " ++
            toString (emptyCellCount (validationReadback sh a rng)) ++ "/" ++
            toString (totalCellCount (validationReadback sh a rng)) ++
            " celdas vacías (" ++
            toString ((200 * emptyCellCount (validationReadback sh a rng) +
              totalCellCount (validationReadback sh a rng)) /
              (2 * totalCellCount (validationReadback sh a rng))) ++
            "%). Se esperaban valores en todas las celdas de datos.",
            some (validationReadback sh a rng)⟩
        else if a.type = ActionType.formula ∧
            0 < errorSentinelCount (validationReadback sh a rng) ∧
            errorSentinelCount (validationReadback sh a rng) =
              totalCellCount (validationReadback sh a rng) then
          ⟨false, "Todas las fórmulas resultaron en error (" ++
            toString (errorSentinelCount (validationReadback sh a rng)) ++ " errores)",
            some (validationReadback sh a rng)⟩
        else
          ⟨true, "Validación exitosa: " ++
            toString (totalCellCount (validationReadback sh a rng) -
              emptyCellCount (validationReadback sh a rng)) ++ "/" ++
            toString (totalCellCount (validationReadback sh a rng)) ++
            " celdas con datos", some (validationReadback sh a rng)⟩) := by
      simp only [validateWriteAction]
      rw [if_neg hE]
    refine ⟨?_, ?_, fun hno => hspec3 hno, ?_⟩
    · rw [hunfL]
      unfold specClassify
      by_cases h1 : expectedDataB a = true ∧
          regionHasNoData (validationReadback sh a rng) = true
      · rw [if_pos h1, if_pos ⟨h1.1, (countFilled_decide_false_iff _).mpr h1.2⟩]
        simp
      · rw [if_neg h1, if_neg (fun hc =>
          h1 ⟨hc.1, (countFilled_decide_false_iff _).mp hc.2⟩)]
        by_cases h2 : a.type = ActionType.write ∧ 1 < optLen a.values ∧
            3 * totalCellCount (validationReadback sh a rng) <
              10 * emptyCellCount (validationReadback sh a rng) ∧
            3 < emptyCellCount (validationReadback sh a rng)
        · rw [if_pos h2, if_pos h2]
          simp
        · rw [if_neg h2, if_neg h2]
          by_cases h3 : a.type = ActionType.formula ∧
              (validationReadback sh a rng).all (fun row => row.all
                (fun v => isErrorSentinelStr (cellToJsString v))) = true
          · rw [if_pos h3, if_pos ((validator_cond3_iff sh a rng).mpr h3)]
            simp
          · rw [if_neg h3, if_neg (fun hc =>
              h3 ((validator_cond3_iff sh a rng).mp hc))]
            simp
    · intro hno hw
      rw [hunfL]
      have hc1 : ¬(expectedDataB a = true ∧
          decide (0 < countFilledCells (validationReadback sh a rng)) = false) := by
        rintro ⟨h1, _⟩; rw [hno] at h1; cases h1
      have hc2 : ¬(a.type = ActionType.write ∧ 1 < optLen a.values ∧
          3 * totalCellCount (validationReadback sh a rng) <
            10 * emptyCellCount (validationReadback sh a rng) ∧
          3 < emptyCellCount (validationReadback sh a rng)) := by
        rintro ⟨_, hlen, _⟩
        have : expectedDataB a = true := by
          unfold expectedDataB
          rw [hw]
          exact decide_eq_true (by omega)
        rw [hno] at this; cases this
      have hc3 : ¬(a.type = ActionType.formula ∧
          0 < errorSentinelCount (validationReadback sh a rng) ∧
          errorSentinelCount (validationReadback sh a rng) =
            totalCellCount (validationReadback sh a rng)) := by
        rintro ⟨hf, _⟩
        rw [hw] at hf; cases hf
      rw [if_neg hc1, if_neg hc2, if_neg hc3]
    · intro hp _
      rw [hunfL] at hp ⊢
      split at hp
      · exact absurd hp (by simp)
      · split at hp
        · exact absurd hp (by simp)
        · split at hp
          · exact absurd hp (by simp)
          · rename_i hn1 hn2 hn3
            rw [if_neg hn1, if_neg hn2, if_neg hn3]

/-- Witness for C4 at a concrete formula action whose 1×2 region came
back with one value and one empty cell: the validator passes and the
spec classifier agrees. -/
theorem claim4_validator_classification_witness :
    ((validateWriteAction none sheetA1 formulaAction1 (Rng.mk 1 1 1 2)).passed = true ↔
      specClassify formulaAction1
        (validationReadback sheetA1 formulaAction1 (Rng.mk 1 1 1 2)) = WriteVerdict.ok)
    ∧ (validateWriteAction none sheetA1 formulaAction1 (Rng.mk 1 1 1 2)).passed = true
    ∧ (validateWriteAction none sheetA1 formulaAction1 (Rng.mk 1 1 1 2)).message =
        "Validación exitosa: 1/2 celdas con datos" := by
  refine ⟨(claim4_validator_classification sheetA1 formulaAction1 (Rng.mk 1 1 1 2)
    (Or.inr rfl)).1, by decide, ?_⟩
  have := (claim4_validator_classification sheetA1 formulaAction1 (Rng.mk 1 1 1 2)
    (Or.inr rfl)).2.2.2 (by decide) (by decide)
  rw [this]
  rfl

/-! ### Claim C1 -/

theorem setCell_within (sh : Sheet) (r0 c0 : Nat) (v : CellValue) (r c : Nat)
    (hne : (sh.setCell r0 c0 v).cellAt r c ≠ sh.cellAt r c) : r = r0 ∧ c = c0 := by
  rw [setCell_cellAt] at hne
  by_cases h : (r, c) = (r0, c0)
  · rw [Prod.mk.injEq] at h
    exact h
  · rw [if_neg h] at hne
    exact absurd rfl hne

theorem writeGrid_within {α : Type} (f : Nat → Nat → α → CellValue) (sh : Sheet)
    (r0 c0 : Nat) (vs : List (List α)) (nC : Nat)
    (hw : ∀ row ∈ vs, row.length = nC) (r c : Nat)
    (hne : (writeGrid f sh r0 c0 vs).cellAt r c ≠ sh.cellAt r c) :
    r0 ≤ r ∧ r < r0 + vs.length ∧ c0 ≤ c ∧ c < c0 + nC := by
  have hdis : ¬((∀ i < vs.length, r ≠ r0 + i) ∨ c < c0 ∨ c0 + nC ≤ c) :=
    fun hd => hne (writeGrid_cellAt_outside f sh r0 c0 vs nC hw r c hd)
  push_neg at hdis
  obtain ⟨⟨i, hi, hri⟩, h2, h3⟩ := hdis
  omega

theorem mainRun_write_eq (evalF : Nat → Nat → String → CellValue) (sh : Sheet)
    (a : Action) (fr : Rng) (warn : String) (hat : a.type = ActionType.write) :
    mainRun evalF sh a fr warn = mainRunWrite sh a fr warn := by
  unfold mainRun
  rw [hat]

theorem mainRun_formula_eq (evalF : Nat → Nat → String → CellValue) (sh : Sheet)
    (a : Action) (fr : Rng) (warn : String) (hat : a.type = ActionType.formula) :
    mainRun evalF sh a fr warn = mainRunFormula evalF sh a fr warn := by
  unfold mainRun
  rw [hat]

/-- When the main run of a well-formed write/formula action succeeds,
every cell it changed lies inside the block of the payload's dimensions
anchored at the executed range's start cell — exactly the block the
collision guard probed. -/
theorem mainRun_writes_within (evalF : Nat → Nat → String → CellValue)
    (sh : Sheet) (a : Action) (fr : Rng) (warn : String) (sh2 : Sheet) (msg : String)
    (hwf1 : a.type = ActionType.write → a.formulas = none ∧ a.formula = none)
    (hwf2 : a.type = ActionType.formula → a.values = none ∧ a.value = none)
    (hok : mainRun evalF sh a fr warn = Except.ok (sh2, msg)) :
    ∀ r c, sh2.cellAt r c ≠ sh.cellAt r c →
      fr.startRow ≤ r ∧ r < fr.startRow + a.payloadRows ∧
      fr.startCol ≤ c ∧ c < fr.startCol + a.payloadCols := by
  intro r c hne
  rcases hat : a.type with _ | _ | kind
  · -- write
    rw [mainRun_write_eq evalF sh a fr warn hat] at hok
    unfold mainRunWrite at hok
    have hvalue1 : ∀ v : CellValue,
        (if fr.rowCount = 1 ∧ fr.colCount = 1 then
            Except.ok (sh.setCell fr.startRow fr.startCol v, warn ++ "Valor escrito")
          else Except.error invalidArgMsg) = Except.ok (sh2, msg) →
        (a.values = none ∨ a.values = some []) →
        fr.startRow ≤ r ∧ r < fr.startRow + a.payloadRows ∧
          fr.startCol ≤ c ∧ c < fr.startCol + a.payloadCols := by
      intro v hok2 hvshape
      split at hok2
      · rename_i hdim
        simp only [Except.ok.injEq, Prod.mk.injEq] at hok2
        rw [← hok2.1] at hne
        obtain ⟨hr, hc⟩ := setCell_within sh fr.startRow fr.startCol v r c hne
        have hpr : a.payloadRows = 1 := by
          unfold Action.payloadRows
          rw [(hwf1 hat).1]
          rcases hvshape with h | h
          · rw [h]; rfl
          · rw [h]; rfl
        have hpc : a.payloadCols = 1 := by
          unfold Action.payloadCols
          rw [(hwf1 hat).1]
          rcases hvshape with h | h
          · rw [h]; rfl
          · rw [h]; rfl
        rw [hpr, hpc]
        omega
      · simp at hok2
    rcases hv : a.values with _ | vs
    · rw [hv] at hok
      rcases hval : a.value with _ | v
      · rw [hval] at hok
        have hok3 : (Except.ok (sh, "Sin datos para escribir") :
            Except String (Sheet × String)) = Except.ok (sh2, msg) := hok
        simp only [Except.ok.injEq, Prod.mk.injEq] at hok3
        rw [← hok3.1] at hne
        exact absurd rfl hne
      · rw [hval] at hok
        exact hvalue1 v hok (Or.inl hv)
    · rcases vs with _ | ⟨row, rest⟩
      · rw [hv] at hok
        rcases hval : a.value with _ | v
        · rw [hval] at hok
          have hok3 : (Except.ok (sh, "Sin datos para escribir") :
              Except String (Sheet × String)) = Except.ok (sh2, msg) := hok
          simp only [Except.ok.injEq, Prod.mk.injEq] at hok3
          rw [← hok3.1] at hne
          exact absurd rfl hne
        · rw [hval] at hok
          exact hvalue1 v hok (Or.inr hv)
      · rw [hv] at hok
        have hok3 : (if ((row :: rest).all
              (fun r2 => decide (r2.length = jsOrNat row.length 1))) = true then
            Except.ok (writeGrid (fun _ _ v => v) sh fr.startRow fr.startCol (row :: rest),
              warn ++ "Datos escritos (" ++ toString (row :: rest).length ++ "x" ++
                toString (jsOrNat row.length 1) ++ ") desde (" ++
                toString fr.startRow ++ "," ++ toString fr.startCol ++ ")")
          else Except.error invalidArgMsg) = Except.ok (sh2, msg) := hok
        split at hok3
        · rename_i hall
          simp only [Except.ok.injEq, Prod.mk.injEq] at hok3
          rw [← hok3.1] at hne
          have hw : ∀ rw2 ∈ (row :: rest), rw2.length = jsOrNat row.length 1 := by
            intro rw2 hmem
            exact of_decide_eq_true (List.all_eq_true.mp hall rw2 hmem)
          have hwithin := writeGrid_within (fun _ _ v => v) sh fr.startRow fr.startCol
            (row :: rest) (jsOrNat row.length 1) hw r c hne
          have hpr : a.payloadRows = (row :: rest).length := by
            unfold Action.payloadRows
            rw [hv]
            rfl
          have hpc : a.payloadCols = jsOrNat row.length 1 := by
            unfold Action.payloadCols
            rw [hv, (hwf1 hat).1]
            rfl
          rw [hpr, hpc]
          exact hwithin
        · simp at hok3
  · -- formula
    rw [mainRun_formula_eq evalF sh a fr warn hat] at hok
    unfold mainRunFormula at hok
    rcases hf : a.formulas with _ | fs
    · rw [hf] at hok
      rcases hf1 : a.formula with _ | f
      · rw [hf1] at hok
        have hok3 : (Except.ok (sh, "Sin fórmula para escribir") :
            Except String (Sheet × String)) = Except.ok (sh2, msg) := hok
        simp only [Except.ok.injEq, Prod.mk.injEq] at hok3
        rw [← hok3.1] at hne
        exact absurd rfl hne
      · rw [hf1] at hok
        have hok3 : (if fr.rowCount = 1 ∧ fr.colCount = 1 then
            Except.ok (sh.setCell fr.startRow fr.startCol
              (evalF fr.startRow fr.startCol
                (if strStartsWith f "=" then f else "=" ++ f)),
              warn ++ "Fórmula escrita")
          else Except.error invalidArgMsg) = Except.ok (sh2, msg) := hok
        split at hok3
        · rename_i hdim
          simp only [Except.ok.injEq, Prod.mk.injEq] at hok3
          rw [← hok3.1] at hne
          obtain ⟨hr, hc⟩ := setCell_within sh fr.startRow fr.startCol _ r c hne
          have hpr : a.payloadRows = 1 := by
            unfold Action.payloadRows
            rw [hf, (hwf2 hat).1]
            rfl
          have hpc : a.payloadCols = 1 := by
            unfold Action.payloadCols
            rw [hf, (hwf2 hat).1]
            rfl
          rw [hpr, hpc]
          omega
        · simp at hok3
    · rw [hf] at hok
      have hok3 : (if fs.length = fr.rowCount ∧
            (fs.all (fun r2 => decide (r2.length = fr.colCount))) = true then
          Except.ok (writeGrid (fun r2 c2 f2 => evalF r2 c2 f2) sh fr.startRow fr.startCol
            (fs.map (fun r2 => r2.map normalizeFormula)),
            warn ++ "Fórmulas escritas")
        else Except.error invalidArgMsg) = Except.ok (sh2, msg) := hok
      split at hok3
      · rename_i hdim
        simp only [Except.ok.injEq, Prod.mk.injEq] at hok3
        rw [← hok3.1] at hne
        have hw : ∀ rw2 ∈ fs.map (fun r2 => r2.map normalizeFormula),
            rw2.length = fr.colCount := by
          intro rw2 hmem
          rw [List.mem_map] at hmem
          obtain ⟨orig, horig, heq⟩ := hmem
          rw [← heq, List.length_map]
          exact of_decide_eq_true (List.all_eq_true.mp hdim.2 orig horig)
        have hwithin := writeGrid_within (fun r2 c2 f2 => evalF r2 c2 f2) sh
          fr.startRow fr.startCol (fs.map (fun r2 => r2.map normalizeFormula))
          fr.colCount hw r c hne
        rw [List.length_map] at hwithin
        rcases hfs : fs with _ | ⟨f0, frest⟩
        · rw [hfs] at hdim
          have h0 : (0 : Nat) = fr.rowCount := hdim.1
          unfold Rng.rowCount at h0
          omega
        · have hpr : a.payloadRows = fs.length := by
            unfold Action.payloadRows
            rw [(hwf2 hat).1, hf]
            show jsOrNat 0 (jsOrNat fs.length 1) = fs.length
            unfold jsOrNat
            rw [if_pos rfl]
            have hlen : fs.length ≠ 0 := by rw [hfs]; simp
            rw [if_neg hlen]
          have hpc : a.payloadCols = fr.colCount := by
            unfold Action.payloadCols
            rw [(hwf2 hat).1, hf, hfs]
            show jsOrNat 0 (jsOrNat f0.length 1) = fr.colCount
            unfold jsOrNat
            rw [if_pos rfl]
            have h0 : f0.length = fr.colCount :=
              of_decide_eq_true (List.all_eq_true.mp hdim.2 f0 (by rw [hfs]; simp))
            have hcpos : fr.colCount ≠ 0 := by
              unfold Rng.colCount
              omega
            rw [← h0] at hcpos
            rw [if_neg hcpos]
            exact h0
          rw [hpr, hpc, hfs]
          rw [hfs] at hwithin
          exact hwithin
      · simp at hok3
  · -- other kinds leave the modelled sheet unchanged
    unfold mainRun at hok
    rw [hat] at hok
    simp only [Except.ok.injEq, Prod.mk.injEq] at hok
    rw [← hok.1] at hne
    exact absurd rfl hne

/-- Claim C1: executing a write or formula action whose `allowOverwrite`
flag is not set — with a succeeding occupancy probe (the probe's own
failure mode is claim C9) and payload fields matching the action's
declared kind, as the schema's data-model invariant requires — never
overwrites a non-empty cell: (i) every previously filled cell keeps its
value; (ii) if the requested target region, expanded to the payload's
dimensions, contains a non-empty cell, then either the action fails with
the sheet untouched, or the executed region starts elsewhere and was
entirely empty immediately prior to the write; (iii) when additionally
no empty region can be found, the action fails without writing. -/
theorem claim1_overwrite_protection (o : ErrOracle)
    (evalF : Nat → Nat → String → CellValue) (sh : Sheet) (a : Action)
    (hprobe : o.probeErr = none)
    (htype : a.type = ActionType.write ∨ a.type = ActionType.formula)
    (hov : a.allowOverwrite = false)
    (hwf1 : a.type = ActionType.write → a.formulas = none ∧ a.formula = none)
    (hwf2 : a.type = ActionType.formula → a.values = none ∧ a.value = none) :
    (∀ r c, (sh.cellAt r c).isFilled = true →
      (executeSingleAction o evalF sh a).sheet.cellAt r c = sh.cellAt r c)
    ∧ (0 < countFilledCells (sh.readRegion a.range.startRow a.range.startCol
          a.payloadRows a.payloadCols) →
        ((executeSingleAction o evalF sh a).result.success = false
          ∧ (executeSingleAction o evalF sh a).sheet = sh)
        ∨ ((executeSingleAction o evalF sh a).finalRange.startCell ≠ a.range.startCell
          ∧ regionHasNoData (sh.readRegion
              (executeSingleAction o evalF sh a).finalRange.startRow
              (executeSingleAction o evalF sh a).finalRange.startCol
              a.payloadRows a.payloadCols) = true))
    ∧ (0 < countFilledCells (sh.readRegion a.range.startRow a.range.startCol
          a.payloadRows a.payloadCols) →
        findEmptyRangeForData o.findErr sh a.payloadRows a.payloadCols = none →
        (executeSingleAction o evalF sh a).result.success = false
        ∧ (executeSingleAction o evalF sh a).sheet = sh) := by
  have hcheck : checkRangeForData o.probeErr sh a.range.startRow a.range.startCol
      a.payloadRows a.payloadCols =
      ⟨decide (0 < countFilledCells (sh.readRegion a.range.startRow a.range.startCol
        a.payloadRows a.payloadCols)),
       countFilledCells (sh.readRegion a.range.startRow a.range.startCol
        a.payloadRows a.payloadCols),
       a.payloadRows * a.payloadCols⟩ := by
    rw [hprobe]
    rfl
  -- the write phase preserves filled cells whenever the executed block is empty
  have hpreserve : ∀ (fr : Rng) (warn : String),
      overwriteGuard o sh a = Sum.inl (fr, warn) →
      regionHasNoData (sh.readRegion fr.startRow fr.startCol
        a.payloadRows a.payloadCols) = true →
      (∀ r c, (sh.cellAt r c).isFilled = true →
        (executeSingleAction o evalF sh a).sheet.cellAt r c = sh.cellAt r c) := by
    intro fr warn hg hempty r c hfill
    rcases he : o.execErr with _ | m2
    · rcases hr : mainRun evalF sh a fr warn with m3 | p
      · rw [executeSingleAction_of_runErr o evalF sh a fr warn m3 hg he hr]
      · rcases p with ⟨sh2, msg⟩
        rw [executeSingleAction_of_runOk o evalF sh a fr warn sh2 msg hg he hr htype]
        show sh2.cellAt r c = sh.cellAt r c
        by_contra hne
        obtain ⟨hb1, hb2, hb3, hb4⟩ :=
          mainRun_writes_within evalF sh a fr warn sh2 msg hwf1 hwf2 hr r c hne
        rw [regionHasNoData_iff] at hempty
        have := hempty (r - fr.startRow) (by omega) (c - fr.startCol) (by omega)
        have hrc : fr.startRow + (r - fr.startRow) = r ∧
            fr.startCol + (c - fr.startCol) = c := ⟨by omega, by omega⟩
        rw [hrc.1, hrc.2, hfill] at this
        exact Bool.true_eq_false.mp this
    · rw [executeSingleAction_of_execErr o evalF sh a fr warn m2 hg he]
  by_cases hdata : 0 < countFilledCells (sh.readRegion a.range.startRow a.range.startCol
      a.payloadRows a.payloadCols)
  · have hhas : (checkRangeForData o.probeErr sh a.range.startRow a.range.startCol
        a.payloadRows a.payloadCols).hasData = true := by
      rw [hcheck]
      exact decide_eq_true hdata
    rcases hfind : findEmptyRangeForData o.findErr sh a.payloadRows a.payloadCols
        with _ | rc
    · -- no empty region: the guard aborts
      have hguard : overwriteGuard o sh a = Sum.inr
          { success := false
            action := a
            message := "No se puede escribir: el rango contiene " ++
              toString (checkRangeForData o.probeErr sh a.range.startRow a.range.startCol
                a.payloadRows a.payloadCols).nonEmptyCells ++ " celdas con datos"
            error := some ("El rango contiene datos existentes. Seleccione un rango " ++
              "vacío o use allowOverwrite para forzar la escritura.")
            validated := false
            validationPassed := none
            validationMessage := none
            actualValues := none } := by
        simp only [overwriteGuard]
        rw [if_pos ⟨htype, hov⟩, if_pos hhas, hfind]
      rw [executeSingleAction_of_guard_inr o evalF sh a _ hguard]
      refine ⟨fun r c _ => rfl, fun _ => Or.inl ⟨rfl, rfl⟩, fun _ _ => ⟨rfl, rfl⟩⟩
    · -- relocation
      rcases rc with ⟨r1, c1⟩
      obtain ⟨hr1, hempty⟩ := findEmptyRangeForData_sound o.findErr sh
        a.payloadRows a.payloadCols r1 c1 hfind
      subst hr1
      have hguard : overwriteGuard o sh a = Sum.inl (Rng.cell 1 c1,
          "⚠️ Se evitó sobreescribir " ++
            toString (checkRangeForData o.probeErr sh a.range.startRow a.range.startCol
              a.payloadRows a.payloadCols).nonEmptyCells ++ " celdas. ") := by
        simp only [overwriteGuard]
        rw [if_pos ⟨htype, hov⟩, if_pos hhas, hfind]
      have hfr : (executeSingleAction o evalF sh a).finalRange = Rng.cell 1 c1 :=
        executeSingleAction_finalRange_of_guard o evalF sh a _ _ hguard
      have hstart : (Rng.cell 1 c1).startRow = 1 ∧ (Rng.cell 1 c1).startCol = c1 :=
        ⟨rfl, rfl⟩
      have hneq : (Rng.cell 1 c1).startCell ≠ a.range.startCell := by
        intro heq
        unfold Rng.startCell at heq
        rw [Prod.mk.injEq] at heq
        have : regionHasNoData (sh.readRegion a.range.startRow a.range.startCol
            a.payloadRows a.payloadCols) = true := by
          rw [← heq.1, ← heq.2]
          exact hempty
        rw [← countFilledCells_eq_zero_iff] at this
        omega
      refine ⟨?_, ?_, ?_⟩
      · exact hpreserve (Rng.cell 1 c1) _ hguard hempty
      · intro _
        right
        rw [hfr]
        exact ⟨hneq, hempty⟩
      · intro _ hnone
        simp at hnone
  · -- the requested block is empty: the guard lets the action through
    have hhas : ¬((checkRangeForData o.probeErr sh a.range.startRow a.range.startCol
        a.payloadRows a.payloadCols).hasData = true) := by
      rw [hcheck]
      simp only []
      intro hcon
      exact hdata (of_decide_eq_true hcon)
    have hguard : overwriteGuard o sh a = Sum.inl (a.range, "") := by
      simp only [overwriteGuard]
      rw [if_pos ⟨htype, hov⟩, if_neg hhas]
    have hempty : regionHasNoData (sh.readRegion a.range.startRow a.range.startCol
        a.payloadRows a.payloadCols) = true := by
      rw [← countFilledCells_eq_zero_iff]
      omega
    exact ⟨hpreserve a.range "" hguard hempty,
      fun hd => absurd hd hdata, fun hd _ => absurd hd hdata⟩

/-- Witness for C1: a 3×1 write aimed at A1 on a sheet whose A1 is
occupied keeps A1 intact, and — the target block being non-empty — the
executed region starts elsewhere (it relocates to column C) over cells
that were all empty. -/
theorem claim1_overwrite_protection_witness :
    (executeSingleAction okOracle evalSeven sheetA1 writeAction3).sheet.cellAt 1 1 =
      sheetA1.cellAt 1 1
    ∧ (0 < countFilledCells (sheetA1.readRegion writeAction3.range.startRow
        writeAction3.range.startCol writeAction3.payloadRows writeAction3.payloadCols))
    ∧ (((executeSingleAction okOracle evalSeven sheetA1 writeAction3).result.success = false
        ∧ (executeSingleAction okOracle evalSeven sheetA1 writeAction3).sheet = sheetA1)
      ∨ ((executeSingleAction okOracle evalSeven sheetA1 writeAction3).finalRange.startCell ≠
          writeAction3.range.startCell
        ∧ regionHasNoData (sheetA1.readRegion
            (executeSingleAction okOracle evalSeven sheetA1 writeAction3).finalRange.startRow
            (executeSingleAction okOracle evalSeven sheetA1 writeAction3).finalRange.startCol
            writeAction3.payloadRows writeAction3.payloadCols) = true)) := by
  have hmain := claim1_overwrite_protection okOracle evalSeven sheetA1 writeAction3
    rfl (Or.inl rfl) rfl (by decide) (by decide)
  exact ⟨hmain.1 1 1 (by decide), by decide, hmain.2.1 (by decide)⟩

end Evoex
